import Mathlib

/-!
Shallow embedding of the Productivity Framework Tracker backend
(`src/app/app.py`), covering the request handlers and helpers that the
specification's testable properties talk about.  Tables of the SQLite
schema become Lean lists of row structures, each handler becomes a pure
function from a database state (plus the acting user id taken from the
session) to a new state and a response, and SQL `ORDER BY` is modelled by
a stable insertion sort on the corresponding key.  Machine integers of the
store are modelled as `Nat`/`Int`; the float division of the dashboard is
modelled over `ℚ` with Python's banker's rounding.
-/

namespace Tracker

/-- Characters removed by Python's `str.strip` (the ASCII whitespace set). -/
def pySpace (c : Char) : Bool :=
  c == ' ' || c == '\t' || c == '\n' || c == '\r' || c == '\x0b' || c == '\x0c'

/-- Python `str.strip`: drop leading and trailing whitespace. -/
def pyStrip (s : String) : String :=
  String.mk (((s.toList.dropWhile pySpace).reverse.dropWhile pySpace).reverse)

/-- ASCII case folding of Python's `str.lower` (registration constrains
usernames to `[a-z0-9_]`, so ASCII folding is the behaviour the handlers
rely on). -/
def lowerChar (c : Char) : Char :=
  if 65 <= c.toNat && c.toNat <= 90 then Char.ofNat (c.toNat + 32) else c

/-- Python `str.lower` over a whole string. -/
def pyLower (s : String) : String := String.mk (s.toList.map lowerChar)

/-- Per-character expansion performed by Python's `html.escape(s)` (with
quoting), which the sanitiser applies to every input string.  The chained
`str.replace` calls of `html.escape` replace `&` first, so they are exactly
this independent per-character map. -/
def escChar (c : Char) : List Char :=
  if c == '&' then "&amp;".toList
  else if c == '<' then "&lt;".toList
  else if c == '>' then "&gt;".toList
  else if c == '"' then "&quot;".toList
  else if c == '\'' then "&#x27;".toList
  else [c]

/-- `html.escape` over a whole string. -/
def htmlEscape (s : String) : String :=
  String.mk (s.toList.flatMap escChar)

def MAX_STR : Nat := 1000

def MAX_TEXT : Nat := 5000

/-- `_san` (app.py:197-201): strip, truncate to `maxlen`, HTML-escape.
Non-string JSON values are mapped to `""` by the handlers before reaching
this point, which the `String`-typed inputs of the embedding represent. -/
def sanitize (maxlen : Nat) (val : String) : String :=
  htmlEscape (String.mk ((pyStrip val).toList.take maxlen))

def _san (val : String) : String := sanitize MAX_STR val

/-- `_san_text` (app.py:203-205). -/
def _san_text (val : String) : String := sanitize MAX_TEXT val

/-- Shape test of the regex `^\d{4}-\d{2}-\d{2}$` (app.py:207-213). -/
def dateShape (s : String) : Bool :=
  let cs := s.toList
  cs.length == 10 && (cs.take 4).all Char.isDigit && cs.getD 4 ' ' == '-'
    && ((cs.drop 5).take 2).all Char.isDigit && cs.getD 7 ' ' == '-'
    && ((cs.drop 8).take 2).all Char.isDigit

/-- `_valid_date` (app.py:207-213); `none` models JSON null/absent, and the
empty string is falsy in Python, hence also maps to `none`. -/
def _valid_date (val : Option String) : Option String :=
  match val with
  | none => none
  | some s => if s == "" then none else if dateShape s then some s else none

/-- Priority normalisation shared by `create_item`, `update_item` and
`import_list` (app.py:571-573, 596-598, 983-985): an absent/empty value and
any value outside `low`/`medium`/`high` fall back to `medium`. -/
def normPriority (p : String) : String :=
  let q := if p == "" then "medium" else p
  if q == "low" || q == "medium" || q == "high" then q else "medium"

/-- Permission normalisation of `share_list` (app.py:1011-1013): absent and
unexpected values fall back to `view`. -/
def normPermission (p : String) : String :=
  let q := if p == "" then "view" else p
  if q == "view" || q == "edit" then q else "view"

/-- Keys of the fixed framework catalog `FRAMEWORKS` (app.py:215-258).  The
handlers only ever consult catalog membership (`key in FRAMEWORKS`), so the
embedding keeps the six keys and omits the static display metadata (name,
author, description, icon, color), which no code path reads. -/
def FRAMEWORKS : List String :=
  ["eisenhower", "timeboxing", "impact_effort", "kanban", "stop_doing", "pareto"]

/-- Row of the `users` table (password and timestamp omitted: no claim
touches them). -/
structure UserRow where
  id : Nat
  username : String
deriving DecidableEq

/-- Row of the `lists` table. -/
structure ListRow where
  id : Nat
  user_id : Nat
  name : String
  description : String
deriving DecidableEq

/-- Row of the `list_items` table. -/
structure ItemRow where
  id : Nat
  list_id : Nat
  title : String
  description : String
  sort_order : Int
  due_date : Option String
  priority : String
  completed : Nat
deriving DecidableEq

/-- Row of the `list_frameworks` table. -/
structure ListFrameworkRow where
  list_id : Nat
  framework_key : String
deriving DecidableEq

/-- Row of the `item_framework_data` table (timestamp omitted). -/
structure ItemFrameworkDataRow where
  item_id : Nat
  framework_key : String
  data_json : String
deriving DecidableEq

/-- Row of the `list_shares` table (timestamp omitted). -/
structure ListShareRow where
  id : Nat
  list_id : Nat
  owner_id : Nat
  shared_with_id : Nat
  permission : String
deriving DecidableEq

/-- Row of the `tags` table. -/
structure TagRow where
  id : Nat
  user_id : Nat
  name : String
  color : String
deriving DecidableEq

/-- Row of the `item_tags` association table. -/
structure ItemTagRow where
  item_id : Nat
  tag_id : Nat
deriving DecidableEq

/-- One entry of a template's snapshot: the source serialises the array of
\{title, description, priority\} objects to JSON text (`items_json`); the
embedding keeps the array structurally, since the only consumers are
`save_template` (producer) and `create_from_template` (parser of its own
output). -/
structure SnapshotEntry where
  title : String
  description : String
  priority : String
deriving DecidableEq

/-- Row of the `list_templates` table (timestamp omitted; `items_json` is
kept structurally as `items_snapshot`). -/
structure TemplateRow where
  id : Nat
  user_id : Nat
  name : String
  description : String
  items_snapshot : List SnapshotEntry
deriving DecidableEq

/-- Row of the `item_comments` table (timestamp omitted; comments are read
back in insertion order, which the list order models). -/
structure CommentRow where
  id : Nat
  item_id : Nat
  user_id : Nat
  content : String
deriving DecidableEq

/-- The database state: one list per table, plus the AUTOINCREMENT counters
the claims observe. -/
structure DB where
  users : List UserRow
  lists : List ListRow
  items : List ItemRow
  list_frameworks : List ListFrameworkRow
  item_framework_data : List ItemFrameworkDataRow
  list_shares : List ListShareRow
  item_comments : List CommentRow
  tags : List TagRow
  item_tags : List ItemTagRow
  list_templates : List TemplateRow
  next_list_id : Nat
  next_item_id : Nat
  next_comment_id : Nat
  next_share_id : Nat
  next_template_id : Nat
deriving DecidableEq

/-- HTTP-level outcome of a handler: a bare `{"ok": true}` success, a
success carrying a number (row id, toggled flag), or an error with its
status code and message. -/
inductive Resp where
  | ok : Resp
  | okNat (n : Nat) : Resp
  | err (status : Nat) (msg : String) : Resp
deriving DecidableEq

/-- `_owns_list` (app.py:399-401). -/
def _owns_list (db : DB) (u lid : Nat) : Bool :=
  db.lists.any (fun l => l.id == lid && l.user_id == u)

/-- The item-ownership join used by the item-scoped handlers (app.py:748,
819, 837, 851): the item exists and its list belongs to the acting user. -/
def ownsItem (db : DB) (u iid : Nat) : Bool :=
  db.items.any (fun i =>
    i.id == iid && db.lists.any (fun l => l.id == i.list_id && l.user_id == u))

/-- Ids of the items of one list (the subquery of app.py:608, 715). -/
def listItemIds (db : DB) (lid : Nat) : List Nat :=
  (db.items.filter (fun i => i.list_id == lid)).map (fun i => i.id)

/-- `update_list` (app.py:520-528): the UPDATE is scoped by
`id=? AND user_id=?` and the handler answers `{"ok": true}` regardless of
whether any row matched. -/
def update_list (db : DB) (u lid : Nat) (name desc : String) : DB × Resp :=
  ({ db with lists := db.lists.map (fun l =>
      if l.id == lid && l.user_id == u then
        { l with name := _san name, description := _san_text desc }
      else l) },
   Resp.ok)

/-- `delete_list` (app.py:530-536): the DELETE is scoped by
`id=? AND user_id=?`; `PRAGMA foreign_keys=ON` cascades the deletion to the
list's items, frameworks and shares, and through items to framework data
and comments.  The handler answers `{"ok": true}` regardless. -/
def delete_list (db : DB) (u lid : Nat) : DB × Resp :=
  if db.lists.any (fun l => l.id == lid && l.user_id == u) then
    let dead := listItemIds db lid
    ({ db with
        lists := db.lists.filter (fun l => !(l.id == lid && l.user_id == u)),
        items := db.items.filter (fun i => !(i.list_id == lid)),
        list_frameworks := db.list_frameworks.filter (fun r => !(r.list_id == lid)),
        list_shares := db.list_shares.filter (fun s => !(s.list_id == lid)),
        item_framework_data := db.item_framework_data.filter
          (fun r => !((dead.contains r.item_id))),
        item_comments := db.item_comments.filter (fun c => !((dead.contains c.item_id))),
        item_tags := db.item_tags.filter (fun t => !((dead.contains t.item_id))) },
     Resp.ok)
  else (db, Resp.ok)

/-- Order of `SELECT ... ORDER BY sort_order, id` (app.py:546). -/
def itemLe (a b : ItemRow) : Prop :=
  a.sort_order < b.sort_order ∨ (a.sort_order = b.sort_order ∧ a.id ≤ b.id)

instance : DecidableRel itemLe := fun a b => by
  unfold itemLe; exact inferInstance

instance : IsTotal ItemRow itemLe := ⟨by
  intro a b; unfold itemLe; omega⟩

instance : IsTrans ItemRow itemLe := ⟨by
  intro a b c hab hbc; unfold itemLe at hab hbc ⊢; omega⟩

/-- `get_items` (app.py:540-559), without the per-item tag decoration that
no claim observes.  `ORDER BY` is modelled by a stable insertion sort. -/
def get_items (db : DB) (u lid : Nat) : Option (List ItemRow) :=
  if _owns_list db u lid then
    some (List.insertionSort itemLe (db.items.filter (fun i => i.list_id == lid)))
  else none

/-- JSON body of an item create/update request. -/
structure ItemInput where
  title : String
  description : String
  due_date : Option String
  priority : String
deriving DecidableEq

/-- `COALESCE(MAX(sort_order),-1)` over one list (app.py:576-577). -/
def max_sort_order (db : DB) (lid : Nat) : Int :=
  match (db.items.filter (fun i => i.list_id == lid)).map (fun i => i.sort_order) with
  | [] => -1
  | x :: xs => xs.foldl max x

/-- `create_item` (app.py:561-582). -/
def create_item (db : DB) (u lid : Nat) (inp : ItemInput) : DB × Resp :=
  if !(_owns_list db u lid) then (db, Resp.err 404 "Not found")
  else if _san inp.title == "" then (db, Resp.err 400 "Title is required")
  else
    ({ db with
        items := db.items ++
          [{ id := db.next_item_id, list_id := lid, title := _san inp.title,
             description := _san_text inp.description,
             sort_order := max_sort_order db lid + 1,
             due_date := _valid_date inp.due_date, priority := normPriority inp.priority,
             completed := 0 }],
        next_item_id := db.next_item_id + 1 },
     Resp.okNat db.next_item_id)

/-- The SELECT of `toggle_item` (app.py:617-618): the item joined against
its list, filtered by item id, list id and owning user. -/
def find_owned_item (db : DB) (u lid iid : Nat) : Option ItemRow :=
  db.items.find? (fun i => i.id == iid && i.list_id == lid && _owns_list db u lid)

/-- `toggle_item` (app.py:613-624): the stored flag is an integer; any
non-zero value is truthy and toggles to `0`, zero toggles to `1`; the
handler returns the new value. -/
def toggle_item (db : DB) (u lid iid : Nat) : DB × Resp :=
  match find_owned_item db u lid iid with
  | none => (db, Resp.err 404 "Not found")
  | some it =>
      ({ db with items := db.items.map (fun i =>
          if i.id == iid then { i with completed := if it.completed ≠ 0 then 0 else 1 }
          else i) },
       Resp.okNat (if it.completed ≠ 0 then 0 else 1))

/-- The UPDATE loop of `reorder_items` (app.py:636-640): for each position
`idx` in the submitted order, set `sort_order=idx` on the row with that id
inside the target list.  The submitted ids are modelled as `Nat` (the
handler skips entries that are not integers; database ids are naturals). -/
def applyOrder (lid : Nat) : List ItemRow → Nat → List Nat → List ItemRow
  | items, _, [] => items
  | items, idx, pid :: rest =>
      applyOrder lid
        (items.map (fun i =>
          if i.id == pid && i.list_id == lid then { i with sort_order := (idx : Int) }
          else i))
        (idx + 1) rest

/-- `reorder_items` (app.py:626-642). -/
def reorder_items (db : DB) (u lid : Nat) (order : List Nat) : DB × Resp :=
  if !(_owns_list db u lid) then (db, Resp.err 404 "Not found")
  else if order.length > 500 then (db, Resp.err 400 "Invalid order")
  else ({ db with items := applyOrder lid db.items 0 order }, Resp.ok)

/-- `add_list_framework` (app.py:690-706): catalog check, ownership check,
then an INSERT whose `UNIQUE(list_id, framework_key)` violation is caught
and ignored; both paths answer success. -/
def add_list_framework (db : DB) (u lid : Nat) (key : String) : DB × Resp :=
  if key ∉ FRAMEWORKS then (db, Resp.err 400 "Invalid framework")
  else if !(_owns_list db u lid) then (db, Resp.err 404 "Not found")
  else if db.list_frameworks.any (fun r => r.list_id == lid && r.framework_key == key) then
    (db, Resp.ok)
  else ({ db with list_frameworks := db.list_frameworks ++ [⟨lid, key⟩] }, Resp.ok)

/-- `remove_list_framework` (app.py:708-718): delete the attachment row and
the per-item data rows of that framework for items of that list. -/
def remove_list_framework (db : DB) (u lid : Nat) (key : String) : DB × Resp :=
  if !(_owns_list db u lid) then (db, Resp.err 404 "Not found")
  else
    ({ db with
        list_frameworks := db.list_frameworks.filter
          (fun r => !(r.list_id == lid && r.framework_key == key)),
        item_framework_data := db.item_framework_data.filter
          (fun r => !(r.framework_key == key && (listItemIds db lid).contains r.item_id)) },
     Resp.ok)

/-- The `INSERT ... ON CONFLICT(item_id, framework_key) DO UPDATE` upsert
shared by the single and batch framework-data writes (app.py:751-756,
769-774). -/
def upsertIFD (table : List ItemFrameworkDataRow) (iid : Nat) (key dat : String) :
    List ItemFrameworkDataRow :=
  if table.any (fun r => r.item_id == iid && r.framework_key == key) then
    table.map (fun r =>
      if r.item_id == iid && r.framework_key == key then { r with data_json := dat } else r)
  else table ++ [⟨iid, key, dat⟩]

/-- `update_framework_data` (app.py:743-758): ownership of the item is
checked; the framework key is not checked against the catalog. -/
def update_framework_data (db : DB) (u iid : Nat) (key dat : String) : DB × Resp :=
  if !(ownsItem db u iid) then (db, Resp.err 404 "Not found")
  else ({ db with item_framework_data := upsertIFD db.item_framework_data iid key dat },
        Resp.ok)

/-- `batch_update_framework_data` (app.py:760-776): ownership of the list
is checked; neither the key nor the item ids of the payload are checked. -/
def batch_update_framework_data (db : DB) (u lid : Nat) (key : String)
    (entries : List (Nat × String)) : DB × Resp :=
  if !(_owns_list db u lid) then (db, Resp.err 404 "Not found")
  else ({ db with item_framework_data :=
      entries.foldl (fun acc e => upsertIFD acc e.1 key e.2) db.item_framework_data },
    Resp.ok)

/-- `add_comment` (app.py:861-872), translated as written: the content is
sanitised and checked non-empty, and the row is inserted with the path's
item id and the session's user id.  No ownership or share check appears in
the source. -/
def add_comment (db : DB) (u iid : Nat) (content : String) : DB × Resp :=
  let c := _san_text content
  if c == "" then (db, Resp.err 400 "Comment cannot be empty")
  else
    ({ db with
        item_comments := db.item_comments ++ [⟨db.next_comment_id, iid, u, c⟩],
        next_comment_id := db.next_comment_id + 1 },
     Resp.okNat db.next_comment_id)

/-- Number of `list_shares` rows for one `(list, shared-with user)` pair. -/
def count_shares (db : DB) (lid target : Nat) : Nat :=
  db.list_shares.countP (fun s => s.list_id == lid && s.shared_with_id == target)

/-- `share_list` (app.py:1003-1027): ownership check, username lookup,
self-share rejection, then an INSERT whose `UNIQUE(list_id, shared_with_id)`
violation falls back to an UPDATE of the permission in place. -/
def share_list (db : DB) (u lid : Nat) (uname perm : String) : DB × Resp :=
  if !(_owns_list db u lid) then (db, Resp.err 404 "Not found")
  else
    match db.users.find? (fun usr => usr.username == pyLower (_san uname)) with
    | none => (db, Resp.err 404 "User not found")
    | some usr =>
      if usr.id == u then (db, Resp.err 400 "Cannot share with yourself")
      else if db.list_shares.any (fun s => s.list_id == lid && s.shared_with_id == usr.id) then
        ({ db with list_shares := db.list_shares.map (fun s =>
            if s.list_id == lid && s.shared_with_id == usr.id then
              { s with permission := normPermission perm }
            else s) },
         Resp.ok)
      else
        ({ db with
            list_shares := db.list_shares ++
              [⟨db.next_share_id, lid, u, usr.id, normPermission perm⟩],
            next_share_id := db.next_share_id + 1 },
         Resp.ok)

/-- Order of the export query `SELECT * FROM list_items WHERE list_id=?
ORDER BY sort_order` (app.py:942), which sorts on `sort_order` alone.  Ties
keep insertion (rowid) order, which the stable insertion sort models. -/
def expLe (a b : ItemRow) : Prop :=
  a.sort_order ≤ b.sort_order

instance : DecidableRel expLe := fun a b => by
  unfold expLe; exact inferInstance

instance : IsTotal ItemRow expLe := ⟨by
  intro a b; unfold expLe; omega⟩

instance : IsTrans ItemRow expLe := ⟨by
  intro a b c hab hbc; unfold expLe at hab hbc ⊢; omega⟩

/-- `update_item` (app.py:584-602): same ownership join as `toggle_item`,
mandatory title, then an UPDATE of the editable fields keyed by item id. -/
def update_item (db : DB) (u lid iid : Nat) (inp : ItemInput) : DB × Resp :=
  match find_owned_item db u lid iid with
  | none => (db, Resp.err 404 "Not found")
  | some _ =>
      if _san inp.title == "" then (db, Resp.err 400 "Title is required")
      else
        ({ db with items := db.items.map (fun i =>
            if i.id == iid then
              { i with
                  title := _san inp.title,
                  description := _san_text inp.description,
                  due_date := _valid_date inp.due_date,
                  priority := normPriority inp.priority }
            else i) },
         Resp.ok)

/-- `delete_item` (app.py:604-611): the DELETE is scoped by
`id=? AND list_id=? AND list_id IN (SELECT id FROM lists WHERE user_id=?)`
and cascades to the deleted items' framework data, comments and tag links;
the handler answers `{"ok": true}` regardless of whether a row matched. -/
def delete_item (db : DB) (u lid iid : Nat) : DB × Resp :=
  if db.items.any (fun i => i.id == iid && i.list_id == lid &&
      db.lists.any (fun l => l.id == i.list_id && l.user_id == u)) then
    let dead := (db.items.filter (fun i => i.id == iid && i.list_id == lid &&
      db.lists.any (fun l => l.id == i.list_id && l.user_id == u))).map (fun i => i.id)
    ({ db with
        items := db.items.filter (fun i => !(i.id == iid && i.list_id == lid &&
          db.lists.any (fun l => l.id == i.list_id && l.user_id == u))),
        item_framework_data := db.item_framework_data.filter
          (fun r => !((dead.contains r.item_id))),
        item_comments := db.item_comments.filter (fun c => !((dead.contains c.item_id))),
        item_tags := db.item_tags.filter (fun t => !((dead.contains t.item_id))) },
     Resp.ok)
  else (db, Resp.ok)

/-- `bulk_delete_items` (app.py:644-657): ownership check, 500-id cap, then
one scoped DELETE per id (order-independent, so modelled as one filter),
cascading to the deleted items' children. -/
def bulk_delete_items (db : DB) (u lid : Nat) (ids : List Nat) : DB × Resp :=
  if !(_owns_list db u lid) then (db, Resp.err 404 "Not found")
  else if ids.length > 500 then (db, Resp.err 400 "Invalid ids")
  else
    let dead := (db.items.filter
      (fun i => ids.contains i.id && i.list_id == lid)).map (fun i => i.id)
    ({ db with
        items := db.items.filter (fun i => !(ids.contains i.id && i.list_id == lid)),
        item_framework_data := db.item_framework_data.filter
          (fun r => !((dead.contains r.item_id))),
        item_comments := db.item_comments.filter (fun c => !((dead.contains c.item_id))),
        item_tags := db.item_tags.filter (fun t => !((dead.contains t.item_id))) },
     Resp.ok)

/-- `bulk_move_items` (app.py:659-676): ownership of the source and target
lists is checked, then each listed item is reassigned. -/
def bulk_move_items (db : DB) (u lid : Nat) (ids : List Nat) (target : Nat) :
    DB × Resp :=
  if !(_owns_list db u lid) then (db, Resp.err 404 "Not found")
  else if ids.length > 500 then (db, Resp.err 400 "Invalid ids")
  else if !(_owns_list db u target) then (db, Resp.err 404 "Target list not found")
  else
    ({ db with items := db.items.map (fun i =>
        if ids.contains i.id && i.list_id == lid then { i with list_id := target } else i) },
     Resp.ok)

/-- `get_list_frameworks` (app.py:680-688). -/
def get_list_frameworks (db : DB) (u lid : Nat) : Option (List String) :=
  if _owns_list db u lid then
    some ((db.list_frameworks.filter (fun r => r.list_id == lid)).map
      (fun r => r.framework_key))
  else none

/-- `get_framework_data` (app.py:722-741): ownership check, then the data
rows of that key joined against the items of that list (the join by item
primary key is modelled by `find?`). -/
def get_framework_data (db : DB) (u lid : Nat) (key : String) :
    Option (List (Nat × String × String × String)) :=
  if _owns_list db u lid then
    some ((db.item_framework_data.filter (fun r => r.framework_key == key)).filterMap
      (fun r =>
        match db.items.find? (fun i => i.id == r.item_id && i.list_id == lid) with
        | some i => some (r.item_id, r.data_json, i.title, i.description)
        | none => none))
  else none

/-- `delete_tag` (app.py:806-812): DELETE scoped by `id=? AND user_id=?`,
cascading to the tag's item links; answers `{"ok": true}` regardless. -/
def delete_tag (db : DB) (u tid : Nat) : DB × Resp :=
  if db.tags.any (fun t => t.id == tid && t.user_id == u) then
    ({ db with
        tags := db.tags.filter (fun t => !(t.id == tid && t.user_id == u)),
        item_tags := db.item_tags.filter (fun it => !(it.tag_id == tid)) },
     Resp.ok)
  else (db, Resp.ok)

/-- `add_item_tag` (app.py:814-830): item ownership check, tag ownership
check, then an INSERT whose composite-primary-key violation is caught and
ignored. -/
def add_item_tag (db : DB) (u iid tid : Nat) : DB × Resp :=
  if !(ownsItem db u iid) then (db, Resp.err 404 "Not found")
  else if !(db.tags.any (fun t => t.id == tid && t.user_id == u)) then
    (db, Resp.err 404 "Tag not found")
  else if db.item_tags.any (fun it => it.item_id == iid && it.tag_id == tid) then
    (db, Resp.ok)
  else ({ db with item_tags := db.item_tags ++ [⟨iid, tid⟩] }, Resp.ok)

/-- `remove_item_tag` (app.py:832-842): item ownership check, then a DELETE
of the association. -/
def remove_item_tag (db : DB) (u iid tid : Nat) : DB × Resp :=
  if !(ownsItem db u iid) then (db, Resp.err 404 "Not found")
  else
    ({ db with item_tags :=
        db.item_tags.filter (fun it => !(it.item_id == iid && it.tag_id == tid)) },
     Resp.ok)

/-- `get_comments` (app.py:846-859): item ownership check, then the item's
comments oldest first (insertion order in the embedding). -/
def get_comments (db : DB) (u iid : Nat) : Option (List CommentRow) :=
  if ownsItem db u iid then
    some (db.item_comments.filter (fun c => c.item_id == iid))
  else none

/-- `delete_comment` (app.py:874-880): DELETE scoped by
`id=? AND user_id=?` (author only); answers `{"ok": true}` regardless. -/
def delete_comment (db : DB) (u cid : Nat) : DB × Resp :=
  ({ db with item_comments :=
      db.item_comments.filter (fun c => !(c.id == cid && c.user_id == u)) },
   Resp.ok)

/-- `get_shares` (app.py:1029-1038): the share rows of the list filtered to
those the caller created — no ownership check and no 404; a non-owner gets
an empty 200 list. -/
def get_shares (db : DB) (u lid : Nat) : List ListShareRow :=
  db.list_shares.filter (fun s => s.list_id == lid && s.owner_id == u)

/-- `remove_share` (app.py:1040-1047): DELETE scoped by
`id=? AND list_id=? AND owner_id=?`; answers `{"ok": true}` regardless. -/
def remove_share (db : DB) (u lid sid : Nat) : DB × Resp :=
  ({ db with list_shares :=
      db.list_shares.filter (fun s =>
        !(s.id == sid && s.list_id == lid && s.owner_id == u)) },
   Resp.ok)

/-- `save_template` (app.py:1079-1097): list ownership check, mandatory
name, then a template row snapshotting the list's description and its items
(title/description/priority) in sort order. -/
def save_template (db : DB) (u lid : Nat) (name : String) : DB × Resp :=
  if !(_owns_list db u lid) then (db, Resp.err 404 "Not found")
  else if _san name == "" then (db, Resp.err 400 "Template name required")
  else
    ({ db with
        list_templates := db.list_templates ++
          [{ id := db.next_template_id, user_id := u, name := _san name,
             description := (match db.lists.find? (fun l => l.id == lid) with
               | some l => l.description
               | none => ""),
             items_snapshot := (List.insertionSort expLe
               (db.items.filter (fun i => i.list_id == lid))).map
                 (fun i => ⟨i.title, i.description, i.priority⟩) }],
        next_template_id := db.next_template_id + 1 },
     Resp.okNat db.next_template_id)

/-- `create_from_template` (app.py:1099-1118): template lookup scoped by
`id=? AND user_id=?` (404 otherwise), then a new list plus one fresh item
per snapshot entry in original order. -/
def create_from_template (db : DB) (u tid : Nat) (name : String) : DB × Resp :=
  match db.list_templates.find? (fun t => t.id == tid && t.user_id == u) with
  | none => (db, Resp.err 404 "Template not found")
  | some tmpl =>
      ({ db with
          lists := db.lists ++
            [⟨db.next_list_id, u, _san (if name == "" then tmpl.name else name),
              tmpl.description⟩],
          items := db.items ++ tmpl.items_snapshot.enum.map (fun p =>
            { id := db.next_item_id + p.1, list_id := db.next_list_id,
              title := p.2.title, description := p.2.description,
              sort_order := (p.1 : Int), due_date := none, priority := p.2.priority,
              completed := 0 }),
          next_list_id := db.next_list_id + 1,
          next_item_id := db.next_item_id + tmpl.items_snapshot.length },
       Resp.okNat db.next_list_id)

/-- `delete_template` (app.py:1120-1126): DELETE scoped by
`id=? AND user_id=?`; answers `{"ok": true}` regardless. -/
def delete_template (db : DB) (u tid : Nat) : DB × Resp :=
  ({ db with list_templates :=
      db.list_templates.filter (fun t => !(t.id == tid && t.user_id == u)) },
   Resp.ok)

/-- The five item fields the export carries and the import reads back
(title, description, priority, due_date, completed); the exported JSON also
carries ids and timestamps, which the import ignores. -/
structure ExpItem where
  title : String
  description : String
  priority : String
  due_date : Option String
  completed : Nat
deriving DecidableEq

/-- Projection of a stored item onto its exported/imported fields. -/
def projItem (i : ItemRow) : ExpItem :=
  ⟨i.title, i.description, i.priority, i.due_date, i.completed⟩

/-- The item payload of `export_list` with `format=json` (app.py:935-963),
restricted to the fields the round-trip property compares. -/
def export_list (db : DB) (u lid : Nat) : Option (List ExpItem) :=
  if _owns_list db u lid then
    some ((List.insertionSort expLe (db.items.filter (fun i => i.list_id == lid))).map
      projItem)
  else none

/-- The item loop of `import_list` (app.py:979-990): `enumerate` supplies
`idx` (advancing also over skipped entries), entries whose sanitised title
is empty are skipped, and each inserted row gets the next AUTOINCREMENT id
`nid`. -/
def importRows (lid : Nat) : Nat → Nat → List ExpItem → List ItemRow
  | _, _, [] => []
  | nid, idx, e :: es =>
      if _san e.title == "" then importRows lid nid (idx + 1) es
      else
        { id := nid, list_id := lid, title := _san e.title,
          description := _san_text e.description,
          sort_order := (idx : Int),
          due_date := _valid_date e.due_date,
          priority := normPriority e.priority,
          completed := if e.completed ≠ 0 then 1 else 0 } :: importRows lid (nid + 1) (idx + 1) es

/-- `import_list` (app.py:965-999).  Flask's route name is `import_list`;
the Lean name avoids starting a line with the keyword `import`. -/
def importList (db : DB) (u : Nat) (name desc : String) (entries : List ExpItem)
    (fws : List String) : DB × Resp :=
  if entries.length > 1000 then (db, Resp.err 400 "Too many items")
  else
    let lid := db.next_list_id
    let listName := _san (if name == "" then "Imported List" else name)
    let rows := importRows lid db.next_item_id 0 entries
    let newFws := (fws.filter (fun fk => FRAMEWORKS.contains fk)).foldl
      (fun acc fk =>
        if (db.list_frameworks ++ acc).any (fun r => r.list_id == lid && r.framework_key == fk)
        then acc
        else acc ++ [⟨lid, fk⟩]) []
    ({ db with
        lists := db.lists ++ [⟨lid, u, listName, _san_text desc⟩],
        items := db.items ++ rows,
        list_frameworks := db.list_frameworks ++ newFws,
        next_list_id := lid + 1,
        next_item_id := db.next_item_id + rows.length },
     Resp.okNat lid)

/-- Python's banker's rounding (`round` with no digits) to an integer:
round to nearest, ties to the even integer. -/
def roundHalfEven (q : ℚ) : ℤ :=
  if q - ⌊q⌋ < 1 / 2 then ⌊q⌋
  else if 1 / 2 < q - ⌊q⌋ then ⌊q⌋ + 1
  else if ⌊q⌋ % 2 = 0 then ⌊q⌋ else ⌊q⌋ + 1

/-- Python's `round(x, 1)`. -/
def pyRound1 (q : ℚ) : ℚ := (roundHalfEven (q * 10) : ℚ) / 10

/-- The `completion_rate` field of the dashboard (app.py:930):
`round((completed_items / total_items * 100) if total_items else 0, 1)`.
The conditional guards the division, which is performed only when
`total_items` is non-zero. -/
def completion_rate (total_items completed_items : Nat) : ℚ :=
  pyRound1 (if total_items ≠ 0 then (completed_items : ℚ) / total_items * 100 else 0)

/-- Stated from the spec's words, for comparison with `completion_rate`:
"a completion rate percentage (zero when there are no items, otherwise
completed/total rounded to one decimal)". -/
def completion_rate_spec (total_items completed_items : Nat) : ℚ :=
  if total_items = 0 then 0 else pyRound1 (100 * completed_items / total_items)

/-- Index of a value in a list of ids (0 when absent; only used under a
membership hypothesis). -/
def idxIn (x : Nat) : List Nat → Nat
  | [] => 0
  | y :: ys => if y == x then 0 else idxIn x ys + 1

/-- Number of `list_frameworks` rows for one `(list, framework key)` pair. -/
def count_lf (db : DB) (lid : Nat) (key : String) : Nat :=
  db.list_frameworks.countP (fun r => r.list_id == lid && r.framework_key == key)

/-- Number of `item_framework_data` rows for one `(item, framework key)`
pair. -/
def count_ifd (db : DB) (iid : Nat) (key : String) : Nat :=
  db.item_framework_data.countP (fun r => r.item_id == iid && r.framework_key == key)

/-- Alice's item: list 1 (owned by user 1) holds item 1. -/
def itMilk : ItemRow :=
  { id := 1, list_id := 1, title := "Milk", description := "", sort_order := 0,
    due_date := none, priority := "high", completed := 0 }

/-- Concrete two-user state used by witnesses and counterexamples: user 1
(alice) owns list 1 with one item; user 2 (bob) owns nothing; there are no
shares. -/
def dbA : DB :=
  { users := [⟨1, "alice"⟩, ⟨2, "bob"⟩],
    lists := [⟨1, 1, "Groceries", ""⟩],
    items := [itMilk],
    list_frameworks := [], item_framework_data := [], list_shares := [],
    item_comments := [], tags := [], item_tags := [], list_templates := [],
    next_list_id := 2, next_item_id := 2, next_comment_id := 1,
    next_share_id := 1, next_template_id := 1 }

/-- Like `dbA` but list 1 is still empty. -/
def dbEmpty : DB :=
  { dbA with items := [], next_item_id := 1 }

/-- Like `dbA` but the stored title contains an HTML entity: exactly what
creating an item titled `a&b` leaves in the store, since `_san` escapes on
input. -/
def dbAmp : DB :=
  { dbA with items := [{ itMilk with title := "a&amp;b", priority := "medium" }] }

/-- Second item of list 1, used by the reorder witness. -/
def itEggs : ItemRow :=
  { id := 2, list_id := 1, title := "Eggs", description := "", sort_order := 1,
    due_date := none, priority := "medium", completed := 0 }

/-- Like `dbA` but list 1 holds Milk (sort 0) and Eggs (sort 1). -/
def dbC4 : DB :=
  { dbA with items := [itMilk, itEggs], next_item_id := 3 }

/-- An exported entry on which the import-side normalisation is the
identity: its title and description are unchanged by the sanitiser (no
characters HTML-escaping rewrites, no surrounding whitespace, within the
length caps), the title is non-empty, the priority is one of the three
valid values, the due date is `none` or of valid shape, and the completed
flag is the stored 0/1.  Every value the handlers themselves store
satisfies this except when the text contains characters that `_san`
rewrites (such as `&`), since `_san` already escaped them on the way in. -/
def entryFixed (e : ExpItem) : Prop :=
  _san e.title = e.title ∧ e.title ≠ "" ∧ _san_text e.description = e.description ∧
  normPriority e.priority = e.priority ∧ _valid_date e.due_date = e.due_date ∧
  (e.completed = 0 ∨ e.completed = 1)

instance (e : ExpItem) : Decidable (entryFixed e) := by
  unfold entryFixed
  exact inferInstance

/-- C9: the dashboard completion rate equals the spec's formula — zero when
the caller has no items, otherwise completed divided by total expressed as
a percentage and rounded to one decimal — and in the code's computation the
division sits under the `total_items` guard, so a zero total yields 0
without the quotient being taken. -/
theorem C9_completion_rate_matches_spec (total completed : Nat) :
    completion_rate total completed = completion_rate_spec total completed ∧
    (total = 0 → completion_rate total completed = 0) := by
  have h0 : roundHalfEven 0 = 0 := by
    unfold roundHalfEven
    norm_num
  have hzero : completion_rate 0 completed = 0 := by
    unfold completion_rate pyRound1
    norm_num [h0]
  refine ⟨?_, fun h => by rw [h]; exact hzero⟩
  by_cases h : total = 0
  · rw [h, hzero]
    simp [completion_rate_spec]
  · unfold completion_rate completion_rate_spec
    rw [if_pos h, if_neg h]
    congr 1
    ring

/-- C6: a freshly created item is appended with sort position one more than
the list's current maximum, which is 0 for an empty list (the SQL
`COALESCE(MAX(sort_order),-1)+1`). -/
theorem C6_create_item_assigns_max_plus_one (db : DB) (u lid : Nat) (inp : ItemInput)
    (howns : _owns_list db u lid = true) (htitle : _san inp.title ≠ "") :
    (create_item db u lid inp).2 = Resp.okNat db.next_item_id ∧
    ∃ it : ItemRow,
      (create_item db u lid inp).1.items = db.items ++ [it] ∧
      it.list_id = lid ∧
      it.sort_order = max_sort_order db lid + 1 ∧
      (db.items.filter (fun i => i.list_id == lid) = [] → it.sort_order = 0) := by
  have ht : (_san inp.title == "") = false := beq_eq_false_iff_ne.mpr htitle
  unfold create_item
  rw [howns, ht]
  refine ⟨rfl,
    ⟨{ id := db.next_item_id, list_id := lid, title := _san inp.title,
       description := _san_text inp.description, sort_order := max_sort_order db lid + 1,
       due_date := _valid_date inp.due_date, priority := normPriority inp.priority,
       completed := 0 },
      rfl, rfl, rfl, fun hemp => ?_⟩⟩
  unfold max_sort_order
  rw [hemp]
  rfl

/-- C6 witness: creating "Milk" in the empty list 1 of `dbEmpty` appends an
item with sort position 0 (the maximum of the empty list being `-1`). -/
theorem C6_create_item_witness :
    (_owns_list dbEmpty 1 1 = true ∧ _san "Milk" ≠ "") ∧
    ((create_item dbEmpty 1 1 ⟨"Milk", "", none, "high"⟩).2 = Resp.okNat 1 ∧
      ∃ it : ItemRow,
        (create_item dbEmpty 1 1 ⟨"Milk", "", none, "high"⟩).1.items = dbEmpty.items ++ [it] ∧
        it.list_id = 1 ∧
        it.sort_order = max_sort_order dbEmpty 1 + 1 ∧
        (dbEmpty.items.filter (fun i => i.list_id == 1) = [] → it.sort_order = 0)) :=
  ⟨⟨by decide, by decide⟩,
    C6_create_item_assigns_max_plus_one dbEmpty 1 1 ⟨"Milk", "", none, "high"⟩
      (by decide) (by decide)⟩

/-- C1, evaluated at the failing input: in `dbA` user 2 owns neither item 1
nor any share, yet `add_comment` invoked by user 2 against item 1 succeeds
and appends a comment row to user 1's item — the handler performs no
ownership check before writing. -/
theorem C1_add_comment_skips_ownership_check :
    ownsItem dbA 2 1 = false ∧ dbA.list_shares = [] ∧
    (add_comment dbA 2 1 "hi").2 = Resp.okNat 1 ∧
    ∃ c ∈ (add_comment dbA 2 1 "hi").1.item_comments, c.item_id = 1 ∧ c.user_id = 2 := by
  decide

/-- C2 counterexample: user 2 updates (and deletes) list 1, which user 2
does not own; both handlers answer the plain success response, not the 404
the claim requires. -/
theorem C2_update_delete_foreign_list_returns_ok :
    _owns_list dbA 2 1 = false ∧
    (update_list dbA 2 1 "x" "y").2 = Resp.ok ∧
    (update_list dbA 2 1 "x" "y").2 ≠ Resp.err 404 "Not found" ∧
    (delete_list dbA 2 1).2 = Resp.ok ∧
    (delete_list dbA 2 1).2 ≠ Resp.err 404 "Not found" := by
  decide

/-- C2 as amended: ownership decides the outcome everywhere, but the
response depends on the handler's shape.  The handlers that pre-check
ownership — item listing, creation, update, toggle, reorder, bulk delete
and bulk move, framework listing/attach/detach, framework-data read and
single and batch write, tag attach and detach, comment listing, export,
share creation, template save and template instantiation — fail with 404
when the target list, item or template is absent or not owned by the
caller.  The handlers built from a single ownership-scoped UPDATE or DELETE
— list update, list delete, item delete, tag delete, comment delete, share
removal and template delete — instead answer the plain 200 success
unconditionally, acting as silent no-ops that change nothing.  Share
listing returns an empty 200 list to a non-owner rather than 404 (and
comment creation performs no check at all: claim C1's code bug). -/
theorem C2_amended_noop_or_404 (db : DB) (u lid iid tid cid sid tid2 target : Nat)
    (key dat uname perm tname cname name desc : String) (inp : ItemInput)
    (ord ids : List Nat) (entries : List (Nat × String))
    (h : _owns_list db u lid = false) :
    update_list db u lid name desc = (db, Resp.ok) ∧
    delete_list db u lid = (db, Resp.ok) ∧
    delete_item db u lid iid = (db, Resp.ok) ∧
    ((db.tags.any (fun t => t.id == tid && t.user_id == u)) = false →
      delete_tag db u tid = (db, Resp.ok)) ∧
    ((db.item_comments.any (fun c => c.id == cid && c.user_id == u)) = false →
      delete_comment db u cid = (db, Resp.ok)) ∧
    ((db.list_shares.any (fun s => s.id == sid && s.list_id == lid && s.owner_id == u))
        = false →
      remove_share db u lid sid = (db, Resp.ok)) ∧
    ((db.list_templates.any (fun t => t.id == tid2 && t.user_id == u)) = false →
      delete_template db u tid2 = (db, Resp.ok)) ∧
    get_items db u lid = none ∧
    (create_item db u lid inp).2 = Resp.err 404 "Not found" ∧
    (update_item db u lid iid inp).2 = Resp.err 404 "Not found" ∧
    (toggle_item db u lid iid).2 = Resp.err 404 "Not found" ∧
    (reorder_items db u lid ord).2 = Resp.err 404 "Not found" ∧
    (bulk_delete_items db u lid ids).2 = Resp.err 404 "Not found" ∧
    (bulk_move_items db u lid ids target).2 = Resp.err 404 "Not found" ∧
    get_list_frameworks db u lid = none ∧
    (key ∈ FRAMEWORKS → (add_list_framework db u lid key).2 = Resp.err 404 "Not found") ∧
    (remove_list_framework db u lid key).2 = Resp.err 404 "Not found" ∧
    get_framework_data db u lid key = none ∧
    (ownsItem db u iid = false →
      (update_framework_data db u iid key dat).2 = Resp.err 404 "Not found") ∧
    (batch_update_framework_data db u lid key entries).2 = Resp.err 404 "Not found" ∧
    (ownsItem db u iid = false →
      (add_item_tag db u iid tid).2 = Resp.err 404 "Not found") ∧
    (ownsItem db u iid = false →
      (remove_item_tag db u iid tid).2 = Resp.err 404 "Not found") ∧
    (ownsItem db u iid = false → get_comments db u iid = none) ∧
    export_list db u lid = none ∧
    (share_list db u lid uname perm).2 = Resp.err 404 "Not found" ∧
    (save_template db u lid tname).2 = Resp.err 404 "Not found" ∧
    ((db.list_templates.any (fun t => t.id == tid2 && t.user_id == u)) = false →
      (create_from_template db u tid2 cname).2 = Resp.err 404 "Template not found") ∧
    ((∀ s ∈ db.list_shares, s.list_id = lid → s.owner_id ≠ u) →
      get_shares db u lid = []) := by
  have h' : db.lists.any (fun l => l.id == lid && l.user_id == u) = false := h
  have hall : ∀ l ∈ db.lists, (l.id == lid && l.user_id == u) = false := by
    intro l hl
    have := List.any_eq_false.mp h' l hl
    simpa using this
  have hfnone : find_owned_item db u lid iid = none := by
    unfold find_owned_item
    refine List.find?_eq_none.mpr (fun i _ => ?_)
    simp [h]
  have hno_item : (db.items.any (fun i => i.id == iid && i.list_id == lid &&
      db.lists.any (fun l => l.id == i.list_id && l.user_id == u))) = false := by
    refine List.any_eq_false.mpr (fun i _ hcontra => ?_)
    simp only [Bool.and_eq_true] at hcontra
    obtain ⟨⟨_, hlid⟩, hany⟩ := hcontra
    rw [beq_iff_eq] at hlid
    rw [hlid] at hany
    rw [h'] at hany
    exact Bool.false_ne_true hany
  refine ⟨?_, ?_, ?_, ?_, ?_, ?_, ?_, ?_, ?_, ?_, ?_, ?_, ?_, ?_, ?_, ?_, ?_, ?_, ?_,
    ?_, ?_, ?_, ?_, ?_, ?_, ?_, ?_, ?_⟩
  · unfold update_list
    have hmap : db.lists.map (fun l =>
        if l.id == lid && l.user_id == u then
          { l with name := _san name, description := _san_text desc }
        else l) = db.lists := by
      conv_rhs => rw [← List.map_id db.lists]
      exact List.map_congr_left (fun l hl => by rw [hall l hl]; rfl)
    rw [hmap]
  · unfold delete_list
    rw [h']
    rfl
  · unfold delete_item
    rw [hno_item]
    rfl
  · intro htag
    unfold delete_tag
    rw [htag]
    rfl
  · intro hcom
    unfold delete_comment
    rw [List.filter_eq_self.mpr (fun c hc => by
      rw [show (c.id == cid && c.user_id == u) = false from
        Bool.eq_false_iff.mpr (List.any_eq_false.mp hcom c hc)]
      rfl)]
  · intro hsh
    unfold remove_share
    rw [List.filter_eq_self.mpr (fun s hs => by
      rw [show (s.id == sid && s.list_id == lid && s.owner_id == u) = false from
        Bool.eq_false_iff.mpr (List.any_eq_false.mp hsh s hs)]
      rfl)]
  · intro htm
    unfold delete_template
    rw [List.filter_eq_self.mpr (fun t ht => by
      rw [show (t.id == tid2 && t.user_id == u) = false from
        Bool.eq_false_iff.mpr (List.any_eq_false.mp htm t ht)]
      rfl)]
  · unfold get_items
    rw [h]
    rfl
  · unfold create_item
    rw [h]
    rfl
  · unfold update_item
    rw [hfnone]
  · unfold toggle_item
    rw [hfnone]
  · unfold reorder_items
    rw [h]
    rfl
  · unfold bulk_delete_items
    rw [h]
    rfl
  · unfold bulk_move_items
    rw [h]
    rfl
  · unfold get_list_frameworks
    rw [h]
    rfl
  · intro hk
    unfold add_list_framework
    rw [if_neg (fun hc => hc hk), h]
    rfl
  · unfold remove_list_framework
    rw [h]
    rfl
  · unfold get_framework_data
    rw [h]
    rfl
  · intro hoi
    unfold update_framework_data
    rw [hoi]
    rfl
  · unfold batch_update_framework_data
    rw [h]
    rfl
  · intro hoi
    unfold add_item_tag
    rw [hoi]
    rfl
  · intro hoi
    unfold remove_item_tag
    rw [hoi]
    rfl
  · intro hoi
    unfold get_comments
    rw [hoi]
    rfl
  · unfold export_list
    rw [h]
    rfl
  · unfold share_list
    rw [h]
    rfl
  · unfold save_template
    rw [h]
    rfl
  · intro htm
    unfold create_from_template
    rw [List.find?_eq_none.mpr (fun t ht => by
      simpa using List.any_eq_false.mp htm t ht)]
  · intro hso
    unfold get_shares
    refine List.filter_eq_nil_iff.mpr (fun s hs => ?_)
    simp only [Bool.and_eq_true, beq_iff_eq, not_and]
    intro h1 h2
    exact hso s hs h1 h2


/-- Setting the completed flag of the row with id `iid` commutes with the
ownership-scoped lookup: looking the item up in the updated table returns
the updated row. -/
theorem find_owned_item_set_completed (db : DB) (u lid iid v : Nat) :
    find_owned_item
      { db with items := db.items.map (fun i =>
          if i.id == iid then { i with completed := v } else i) }
      u lid iid
      = Option.map (fun i => if i.id == iid then { i with completed := v } else i)
          (find_owned_item db u lid iid) := by
  show List.find? (fun i => i.id == iid && i.list_id == lid && _owns_list db u lid)
      (db.items.map (fun i => if i.id == iid then { i with completed := v } else i))
      = Option.map (fun i => if i.id == iid then { i with completed := v } else i)
          (List.find? (fun i => i.id == iid && i.list_id == lid && _owns_list db u lid)
            db.items)
  rw [List.find?_map]
  have hfun : ((fun (i : ItemRow) => i.id == iid && i.list_id == lid && _owns_list db u lid) ∘
      (fun (i : ItemRow) => if i.id == iid then { i with completed := v } else i)) =
      (fun (i : ItemRow) => i.id == iid && i.list_id == lid && _owns_list db u lid) := by
    funext i
    by_cases hi : (i.id == iid) = true
    · simp [Function.comp, hi]
    · simp [Function.comp, hi]
  rw [hfun]

/-- C5: toggling an owned item flips its 0/1 completed flag and answers the
new value; toggling twice answers the original value and stores the
original value back on the item. -/
theorem C5_toggle_flips_and_restores (db : DB) (u lid iid : Nat) (it : ItemRow)
    (hfind : find_owned_item db u lid iid = some it)
    (hc : it.completed = 0 ∨ it.completed = 1) :
    (toggle_item db u lid iid).2 = Resp.okNat (1 - it.completed) ∧
    (toggle_item (toggle_item db u lid iid).1 u lid iid).2 = Resp.okNat it.completed ∧
    ∃ it2 : ItemRow,
      find_owned_item (toggle_item (toggle_item db u lid iid).1 u lid iid).1 u lid iid
        = some it2 ∧ it2.completed = it.completed := by
  have hfind' : List.find? (fun i => i.id == iid && i.list_id == lid && _owns_list db u lid)
      db.items = some it := hfind
  have hid : (it.id == iid) = true := by
    have h := List.find?_some hfind'
    simp only [Bool.and_eq_true] at h
    exact h.1.1
  have e1 : toggle_item db u lid iid =
      ({ db with items := db.items.map (fun i =>
          if i.id == iid then { i with completed := if it.completed ≠ 0 then 0 else 1 }
          else i) },
       Resp.okNat (if it.completed ≠ 0 then 0 else 1)) := by
    unfold toggle_item
    rw [hfind]
  have f1 : find_owned_item
      ({ db with items := db.items.map (fun i =>
          if i.id == iid then { i with completed := if it.completed ≠ 0 then 0 else 1 }
          else i) }) u lid iid
      = some { it with completed := if it.completed ≠ 0 then 0 else 1 } := by
    rw [find_owned_item_set_completed, hfind, Option.map_some', if_pos hid]
  rw [e1]
  dsimp only
  refine ⟨?_, ?_, ?_⟩
  · rcases hc with h | h <;> simp [h]
  · unfold toggle_item
    rw [f1]
    rcases hc with h | h <;> simp [h]
  · unfold toggle_item
    rw [f1]
    dsimp only
    rw [find_owned_item_set_completed
      { db with items := db.items.map (fun i =>
          if i.id == iid then { i with completed := if it.completed ≠ 0 then 0 else 1 }
          else i) }
      u lid iid (if (if it.completed ≠ 0 then 0 else 1) ≠ 0 then 0 else 1)]
    rw [f1, Option.map_some', if_pos hid]
    refine ⟨_, rfl, ?_⟩
    rcases hc with h | h <;> simp [h]

/-- C5 witness: in `dbA`, item 1 (completed = 0) toggles to 1 and back to
0. -/
theorem C5_toggle_witness :
    (find_owned_item dbA 1 1 1 = some itMilk ∧
      (itMilk.completed = 0 ∨ itMilk.completed = 1)) ∧
    ((toggle_item dbA 1 1 1).2 = Resp.okNat (1 - itMilk.completed) ∧
      (toggle_item (toggle_item dbA 1 1 1).1 1 1 1).2 = Resp.okNat itMilk.completed ∧
      ∃ it2 : ItemRow,
        find_owned_item (toggle_item (toggle_item dbA 1 1 1).1 1 1 1).1 1 1 1 = some it2 ∧
        it2.completed = itMilk.completed) :=
  ⟨⟨by decide, by decide⟩,
    C5_toggle_flips_and_restores dbA 1 1 1 itMilk (by decide) (by decide)⟩

/-- C7: attaching a catalog framework key to an owned list twice leaves
exactly one `list_frameworks` row for the pair (the duplicate attach is a
silent success, not an error), and detaching it afterwards keeps exactly
the `item_framework_data` rows that are not for that key on an item of that
list. -/
theorem C7_attach_idempotent_detach_scoped (db : DB) (u lid : Nat) (key : String)
    (hkey : key ∈ FRAMEWORKS) (howns : _owns_list db u lid = true)
    (huniq : count_lf db lid key ≤ 1) :
    (add_list_framework db u lid key).2 = Resp.ok ∧
    (add_list_framework (add_list_framework db u lid key).1 u lid key).2 = Resp.ok ∧
    count_lf (add_list_framework (add_list_framework db u lid key).1 u lid key).1 lid key
      = 1 ∧
    (remove_list_framework
        (add_list_framework (add_list_framework db u lid key).1 u lid key).1
        u lid key).2 = Resp.ok ∧
    ∀ r : ItemFrameworkDataRow,
      r ∈ (remove_list_framework
          (add_list_framework (add_list_framework db u lid key).1 u lid key).1
          u lid key).1.item_framework_data ↔
        (r ∈ (add_list_framework
            (add_list_framework db u lid key).1 u lid key).1.item_framework_data ∧
          ¬(r.framework_key = key ∧
            r.item_id ∈ listItemIds
              (add_list_framework (add_list_framework db u lid key).1 u lid key).1 lid)) := by
  have hkey' : ¬key ∉ FRAMEWORKS := fun h => h hkey
  have hb : ∀ (ids : List Nat) (r : ItemFrameworkDataRow),
      ((!(r.framework_key == key && ids.contains r.item_id)) = true) ↔
      ¬(r.framework_key = key ∧ r.item_id ∈ ids) := by
    intro ids r
    simp [List.contains, List.elem_iff]
    tauto
  by_cases hA :
      (db.list_frameworks.any (fun r => r.list_id == lid && r.framework_key == key)) = true
  · have e1 : add_list_framework db u lid key = (db, Resp.ok) := by
      unfold add_list_framework
      rw [if_neg hkey', howns, hA]
      rfl
    have hge : 0 < count_lf db lid key := by
      obtain ⟨r, hr, hpr⟩ := List.any_eq_true.mp hA
      exact List.countP_pos_iff.mpr ⟨r, hr, hpr⟩
    rw [e1]
    dsimp only
    rw [e1]
    dsimp only
    have e3 : remove_list_framework db u lid key =
        ({ db with
            list_frameworks := db.list_frameworks.filter
              (fun r => !(r.list_id == lid && r.framework_key == key)),
            item_framework_data := db.item_framework_data.filter
              (fun r => !(r.framework_key == key && (listItemIds db lid).contains r.item_id)) },
         Resp.ok) := by
      unfold remove_list_framework
      rw [howns]
      rfl
    rw [e3]
    dsimp only
    refine ⟨rfl, rfl, by omega, rfl, fun r => ?_⟩
    rw [List.mem_filter, hb]
  · have e1 : add_list_framework db u lid key =
        ({ db with list_frameworks := db.list_frameworks ++ [⟨lid, key⟩] }, Resp.ok) := by
      unfold add_list_framework
      rw [if_neg hkey', howns]
      rw [show (db.list_frameworks.any (fun r => r.list_id == lid && r.framework_key == key))
          = false from Bool.eq_false_iff.mpr hA]
      rfl
    have howns2 : _owns_list
        ({ db with list_frameworks := db.list_frameworks ++ [⟨lid, key⟩] }) u lid = true :=
      howns
    have hA2 : ((db.list_frameworks ++ [({ list_id := lid, framework_key := key } : ListFrameworkRow)]).any
        (fun r => r.list_id == lid && r.framework_key == key)) = true := by
      rw [List.any_append]
      simp
    have e2 : add_list_framework
        ({ db with list_frameworks := db.list_frameworks ++ [⟨lid, key⟩] }) u lid key =
        ({ db with list_frameworks := db.list_frameworks ++ [⟨lid, key⟩] }, Resp.ok) := by
      unfold add_list_framework
      rw [if_neg hkey', howns2]
      dsimp only
      rw [hA2]
      rfl
    have hz : count_lf db lid key = 0 := by
      refine List.countP_eq_zero.mpr (fun r hr => ?_)
      exact List.any_eq_false.mp (Bool.eq_false_iff.mpr hA) r hr
    have e3 : remove_list_framework
        ({ db with list_frameworks := db.list_frameworks ++
          [({ list_id := lid, framework_key := key } : ListFrameworkRow)] }) u lid key =
        ({ db with
            list_frameworks := (db.list_frameworks ++
              [({ list_id := lid, framework_key := key } : ListFrameworkRow)]).filter
              (fun r => !(r.list_id == lid && r.framework_key == key)),
            item_framework_data := db.item_framework_data.filter
              (fun r => !(r.framework_key == key && (listItemIds db lid).contains r.item_id)) },
         Resp.ok) := by
      unfold remove_list_framework
      rw [howns2]
      rfl
    rw [e1]
    dsimp only
    rw [e2]
    dsimp only
    rw [e3]
    dsimp only
    refine ⟨rfl, rfl, ?_, rfl, fun r => ?_⟩
    · unfold count_lf at hz ⊢
      dsimp only
      rw [List.countP_append, hz]
      simp
    · rw [List.mem_filter, hb]
      exact Iff.rfl

/-- C7 witness: attaching "kanban" twice to list 1 of `dbA` and detaching
it, with the detach filter evaluated at one concrete data row. -/
theorem C7_attach_detach_witness :
    ("kanban" ∈ FRAMEWORKS ∧ _owns_list dbA 1 1 = true ∧ count_lf dbA 1 "kanban" ≤ 1) ∧
    (add_list_framework dbA 1 1 "kanban").2 = Resp.ok ∧
    (add_list_framework (add_list_framework dbA 1 1 "kanban").1 1 1 "kanban").2 = Resp.ok ∧
    count_lf (add_list_framework (add_list_framework dbA 1 1 "kanban").1 1 1 "kanban").1
      1 "kanban" = 1 ∧
    (remove_list_framework
        (add_list_framework (add_list_framework dbA 1 1 "kanban").1 1 1 "kanban").1
        1 1 "kanban").2 = Resp.ok ∧
    ((⟨1, "kanban", "x"⟩ : ItemFrameworkDataRow) ∈ (remove_list_framework
        (add_list_framework (add_list_framework dbA 1 1 "kanban").1 1 1 "kanban").1
        1 1 "kanban").1.item_framework_data ↔
      ((⟨1, "kanban", "x"⟩ : ItemFrameworkDataRow) ∈ (add_list_framework
          (add_list_framework dbA 1 1 "kanban").1 1 1 "kanban").1.item_framework_data ∧
        ¬((⟨1, "kanban", "x"⟩ : ItemFrameworkDataRow).framework_key = "kanban" ∧
          (⟨1, "kanban", "x"⟩ : ItemFrameworkDataRow).item_id ∈ listItemIds
            (add_list_framework (add_list_framework dbA 1 1 "kanban").1 1 1 "kanban").1 1))) :=
  ⟨⟨by decide, by decide, by decide⟩,
    (C7_attach_idempotent_detach_scoped dbA 1 1 "kanban" (by decide) (by decide) (by decide)).1,
    (C7_attach_idempotent_detach_scoped dbA 1 1 "kanban" (by decide) (by decide) (by decide)).2.1,
    (C7_attach_idempotent_detach_scoped dbA 1 1 "kanban" (by decide) (by decide) (by decide)).2.2.1,
    (C7_attach_idempotent_detach_scoped dbA 1 1 "kanban" (by decide) (by decide) (by decide)).2.2.2.1,
    (C7_attach_idempotent_detach_scoped dbA 1 1 "kanban" (by decide) (by decide) (by decide)).2.2.2.2
      ⟨1, "kanban", "x"⟩⟩

/-- C2 amended witness: at `dbA` with acting user 2 and list 1 (owned by
user 1), every scoped UPDATE/DELETE handler is a no-op answering success,
every pre-checking handler answers 404, and share listing is empty. -/
theorem C2_amended_noop_or_404_witness :
    _owns_list dbA 2 1 = false ∧
    update_list dbA 2 1 "x" "y" = (dbA, Resp.ok) ∧
    delete_list dbA 2 1 = (dbA, Resp.ok) ∧
    delete_item dbA 2 1 1 = (dbA, Resp.ok) ∧
    delete_tag dbA 2 1 = (dbA, Resp.ok) ∧
    delete_comment dbA 2 1 = (dbA, Resp.ok) ∧
    remove_share dbA 2 1 1 = (dbA, Resp.ok) ∧
    delete_template dbA 2 1 = (dbA, Resp.ok) ∧
    get_items dbA 2 1 = none ∧
    (create_item dbA 2 1 ⟨"T", "", none, "high"⟩).2 = Resp.err 404 "Not found" ∧
    (update_item dbA 2 1 1 ⟨"T", "", none, "high"⟩).2 = Resp.err 404 "Not found" ∧
    (toggle_item dbA 2 1 1).2 = Resp.err 404 "Not found" ∧
    (reorder_items dbA 2 1 [1]).2 = Resp.err 404 "Not found" ∧
    (bulk_delete_items dbA 2 1 [1]).2 = Resp.err 404 "Not found" ∧
    (bulk_move_items dbA 2 1 [1] 1).2 = Resp.err 404 "Not found" ∧
    get_list_frameworks dbA 2 1 = none ∧
    (add_list_framework dbA 2 1 "kanban").2 = Resp.err 404 "Not found" ∧
    (remove_list_framework dbA 2 1 "kanban").2 = Resp.err 404 "Not found" ∧
    get_framework_data dbA 2 1 "kanban" = none ∧
    (update_framework_data dbA 2 1 "kanban" "d").2 = Resp.err 404 "Not found" ∧
    (batch_update_framework_data dbA 2 1 "kanban" [(1, "d")]).2
      = Resp.err 404 "Not found" ∧
    (add_item_tag dbA 2 1 1).2 = Resp.err 404 "Not found" ∧
    (remove_item_tag dbA 2 1 1).2 = Resp.err 404 "Not found" ∧
    get_comments dbA 2 1 = none ∧
    export_list dbA 2 1 = none ∧
    (share_list dbA 2 1 "alice" "view").2 = Resp.err 404 "Not found" ∧
    (save_template dbA 2 1 "t").2 = Resp.err 404 "Not found" ∧
    (create_from_template dbA 2 1 "c").2 = Resp.err 404 "Template not found" ∧
    get_shares dbA 2 1 = [] := by
  have hT := C2_amended_noop_or_404 dbA 2 1 1 1 1 1 1 1 "kanban" "d" "alice" "view" "t" "c"
    "x" "y" ⟨"T", "", none, "high"⟩ [1] [1] [(1, "d")] (by decide)
  obtain ⟨h1, h2, h3, h4, h5, h6, h7, h8, h9, h10, h11, h12, h13, h14, h15, h16, h17, h18,
    h19, h20, h21, h22, h23, h24, h25, h26, h27, h28⟩ := hT
  exact ⟨by decide, h1, h2, h3, h4 (by decide), h5 (by decide), h6 (by decide),
    h7 (by decide), h8, h9, h10, h11, h12, h13, h14, h15, h16 (by decide), h17, h18,
    h19 (by decide), h20, h21 (by decide), h22 (by decide), h23 (by decide), h24, h25,
    h26, h27 (by decide), h28 (by decide)⟩

/-- C8: sharing an owned list with an existing distinct user and then
re-sharing with another permission leaves exactly one `list_shares` row for
the pair, carrying the latest (normalised) permission; both calls answer
success. -/
theorem C8_share_upserts_single_row (db : DB) (u lid : Nat) (uname p1 p2 : String)
    (B : UserRow)
    (howns : _owns_list db u lid = true)
    (hfind : db.users.find? (fun usr => usr.username == pyLower (_san uname)) = some B)
    (hne : B.id ≠ u)
    (huniq : count_shares db lid B.id ≤ 1) :
    (share_list db u lid uname p1).2 = Resp.ok ∧
    (share_list (share_list db u lid uname p1).1 u lid uname p2).2 = Resp.ok ∧
    count_shares (share_list (share_list db u lid uname p1).1 u lid uname p2).1 lid B.id
      = 1 ∧
    ∀ s ∈ (share_list (share_list db u lid uname p1).1 u lid uname p2).1.list_shares,
      s.list_id = lid → s.shared_with_id = B.id → s.permission = normPermission p2 := by
  have hneq : (B.id == u) = false := beq_eq_false_iff_ne.mpr hne
  have hm : ∀ (p : String),
      ((fun (s : ListShareRow) => s.list_id == lid && s.shared_with_id == B.id) ∘
        (fun (s : ListShareRow) =>
          if s.list_id == lid && s.shared_with_id == B.id then
            { s with permission := normPermission p }
          else s)) =
      (fun (s : ListShareRow) => s.list_id == lid && s.shared_with_id == B.id) := by
    intro p
    funext s
    by_cases h : (s.list_id == lid && s.shared_with_id == B.id) = true <;>
      simp [Function.comp, h]
  have hcnt : ∀ (p : String) (L : List ListShareRow),
      (L.map (fun s =>
        if s.list_id == lid && s.shared_with_id == B.id then
          { s with permission := normPermission p }
        else s)).countP (fun s => s.list_id == lid && s.shared_with_id == B.id)
      = L.countP (fun s => s.list_id == lid && s.shared_with_id == B.id) := by
    intro p L
    rw [List.countP_map, hm p]
  have hperm : ∀ (p : String) (L : List ListShareRow) (s : ListShareRow),
      s ∈ L.map (fun s =>
        if s.list_id == lid && s.shared_with_id == B.id then
          { s with permission := normPermission p }
        else s) →
      s.list_id = lid → s.shared_with_id = B.id → s.permission = normPermission p := by
    intro p L s hs h1 h2
    obtain ⟨s0, hs0, rfl⟩ := List.mem_map.mp hs
    by_cases hm0 : (s0.list_id == lid && s0.shared_with_id == B.id) = true
    · simp [hm0]
    · simp only [hm0] at h1 h2
      simp only [Bool.false_eq_true, if_false] at h1 h2 ⊢
      exact absurd (by simp [h1, h2]) hm0
  by_cases hA :
      (db.list_shares.any (fun s => s.list_id == lid && s.shared_with_id == B.id)) = true
  · have e1 : share_list db u lid uname p1 =
        ({ db with list_shares := db.list_shares.map (fun s =>
            if s.list_id == lid && s.shared_with_id == B.id then
              { s with permission := normPermission p1 }
            else s) },
         Resp.ok) := by
      unfold share_list
      rw [howns, hfind]
      dsimp only
      rw [hneq, hA]
      rfl
    have hpos : 0 < count_shares db lid B.id := by
      obtain ⟨r, hr, hpr⟩ := List.any_eq_true.mp hA
      exact List.countP_pos_iff.mpr ⟨r, hr, hpr⟩
    have hA2 : ((db.list_shares.map (fun s =>
        if s.list_id == lid && s.shared_with_id == B.id then
          { s with permission := normPermission p1 }
        else s)).any (fun s => s.list_id == lid && s.shared_with_id == B.id)) = true := by
      rw [List.any_eq_true]
      refine List.countP_pos_iff.mp ?_
      rw [hcnt]
      exact hpos
    have e2 : share_list
        ({ db with list_shares := db.list_shares.map (fun s =>
            if s.list_id == lid && s.shared_with_id == B.id then
              { s with permission := normPermission p1 }
            else s) }) u lid uname p2 =
        ({ db with list_shares := (db.list_shares.map (fun s =>
            if s.list_id == lid && s.shared_with_id == B.id then
              { s with permission := normPermission p1 }
            else s)).map (fun s =>
            if s.list_id == lid && s.shared_with_id == B.id then
              { s with permission := normPermission p2 }
            else s) },
         Resp.ok) := by
      unfold share_list
      rw [show _owns_list ({ db with list_shares := db.list_shares.map (fun s =>
          if s.list_id == lid && s.shared_with_id == B.id then
            { s with permission := normPermission p1 }
          else s) }) u lid = true from howns]
      rw [show ({ db with list_shares := db.list_shares.map (fun s =>
          if s.list_id == lid && s.shared_with_id == B.id then
            { s with permission := normPermission p1 }
          else s) } : DB).users.find?
            (fun usr => usr.username == pyLower (_san uname)) = some B from hfind]
      dsimp only
      rw [hneq, hA2]
      rfl
    rw [e1]
    dsimp only
    rw [e2]
    dsimp only
    refine ⟨rfl, rfl, ?_, fun s hs h1 h2 => hperm p2 _ s hs h1 h2⟩
    unfold count_shares at hpos huniq ⊢
    dsimp only
    rw [hcnt p2, hcnt p1]
    omega
  · have hz : db.list_shares.countP
        (fun s => s.list_id == lid && s.shared_with_id == B.id) = 0 := by
      refine List.countP_eq_zero.mpr (fun r hr => ?_)
      exact List.any_eq_false.mp (Bool.eq_false_iff.mpr hA) r hr
    have e1 : share_list db u lid uname p1 =
        ({ db with
            list_shares := db.list_shares ++
              [({ id := db.next_share_id, list_id := lid, owner_id := u,
                  shared_with_id := B.id,
                  permission := normPermission p1 } : ListShareRow)],
            next_share_id := db.next_share_id + 1 },
         Resp.ok) := by
      unfold share_list
      rw [howns, hfind]
      dsimp only
      rw [hneq]
      rw [show (db.list_shares.any
          (fun s => s.list_id == lid && s.shared_with_id == B.id)) = false from
        Bool.eq_false_iff.mpr hA]
      rfl
    have hA2 : ((db.list_shares ++
        [({ id := db.next_share_id, list_id := lid, owner_id := u,
            shared_with_id := B.id,
            permission := normPermission p1 } : ListShareRow)]).any
          (fun s => s.list_id == lid && s.shared_with_id == B.id)) = true := by
      rw [List.any_append]
      simp
    have e2 : share_list
        ({ db with
            list_shares := db.list_shares ++
              [({ id := db.next_share_id, list_id := lid, owner_id := u,
                  shared_with_id := B.id,
                  permission := normPermission p1 } : ListShareRow)],
            next_share_id := db.next_share_id + 1 }) u lid uname p2 =
        ({ db with
            list_shares := (db.list_shares ++
              [({ id := db.next_share_id, list_id := lid, owner_id := u,
                  shared_with_id := B.id,
                  permission := normPermission p1 } : ListShareRow)]).map (fun s =>
                if s.list_id == lid && s.shared_with_id == B.id then
                  { s with permission := normPermission p2 }
                else s),
            next_share_id := db.next_share_id + 1 },
         Resp.ok) := by
      unfold share_list
      rw [show _owns_list ({ db with
          list_shares := db.list_shares ++
            [({ id := db.next_share_id, list_id := lid, owner_id := u,
                shared_with_id := B.id,
                permission := normPermission p1 } : ListShareRow)],
          next_share_id := db.next_share_id + 1 }) u lid = true from howns]
      rw [show ({ db with
          list_shares := db.list_shares ++
            [({ id := db.next_share_id, list_id := lid, owner_id := u,
                shared_with_id := B.id,
                permission := normPermission p1 } : ListShareRow)],
          next_share_id := db.next_share_id + 1 } : DB).users.find?
            (fun usr => usr.username == pyLower (_san uname)) = some B from hfind]
      dsimp only
      rw [hneq, hA2]
      rfl
    rw [e1]
    dsimp only
    rw [e2]
    dsimp only
    refine ⟨rfl, rfl, ?_, fun s hs h1 h2 => hperm p2 _ s hs h1 h2⟩
    unfold count_shares
    dsimp only
    rw [hcnt p2, List.countP_append, hz]
    simp

/-- C8 witness: user 1 shares list 1 with "bob" as view, then re-shares as
edit; exactly one row remains, carrying "edit". -/
theorem C8_share_witness :
    (_owns_list dbA 1 1 = true ∧
      dbA.users.find? (fun usr => usr.username == pyLower (_san "Bob"))
        = some ⟨2, "bob"⟩ ∧
      (2 : Nat) ≠ 1 ∧ count_shares dbA 1 2 ≤ 1) ∧
    ((share_list dbA 1 1 "Bob" "view").2 = Resp.ok ∧
      (share_list (share_list dbA 1 1 "Bob" "view").1 1 1 "Bob" "edit").2 = Resp.ok ∧
      count_shares (share_list (share_list dbA 1 1 "Bob" "view").1 1 1 "Bob" "edit").1 1 2
        = 1) :=
  ⟨⟨by decide, by decide, by decide, by decide⟩,
    (C8_share_upserts_single_row dbA 1 1 "Bob" "view" "edit" ⟨2, "bob"⟩
      (by decide) (by decide) (by decide) (by decide)).1,
    (C8_share_upserts_single_row dbA 1 1 "Bob" "view" "edit" ⟨2, "bob"⟩
      (by decide) (by decide) (by decide) (by decide)).2.1,
    (C8_share_upserts_single_row dbA 1 1 "Bob" "view" "edit" ⟨2, "bob"⟩
      (by decide) (by decide) (by decide) (by decide)).2.2.1⟩

/-- Effect of one framework-data upsert on the per-`(item, key)` row
count: a pair that already has a row keeps its count, the upserted pair
gains one row exactly when it had none, and other pairs are untouched. -/
theorem upsertIFD_countP (table : List ItemFrameworkDataRow) (iid j : Nat)
    (key dat : String) :
    (upsertIFD table iid key dat).countP
        (fun r => r.item_id == j && r.framework_key == key) =
      table.countP (fun r => r.item_id == j && r.framework_key == key) +
        (if j = iid ∧
            table.countP (fun r => r.item_id == iid && r.framework_key == key) = 0
          then 1 else 0) := by
  unfold upsertIFD
  by_cases hA : (table.any (fun r => r.item_id == iid && r.framework_key == key)) = true
  · rw [if_pos hA, List.countP_map]
    have hpos : 0 < table.countP
        (fun r => r.item_id == iid && r.framework_key == key) := by
      obtain ⟨r, hr, hpr⟩ := List.any_eq_true.mp hA
      exact List.countP_pos_iff.mpr ⟨r, hr, hpr⟩
    have hcmp : ((fun (r : ItemFrameworkDataRow) =>
        r.item_id == j && r.framework_key == key) ∘
        (fun r => if r.item_id == iid && r.framework_key == key then
          { r with data_json := dat } else r)) =
        (fun (r : ItemFrameworkDataRow) =>
          r.item_id == j && r.framework_key == key) := by
      funext r
      by_cases h : (r.item_id == iid && r.framework_key == key) = true <;>
        simp [Function.comp, h]
    have hcond : ¬(j = iid ∧ table.countP
        (fun r => r.item_id == iid && r.framework_key == key) = 0) := by
      rintro ⟨_, h0⟩
      omega
    rw [hcmp, if_neg hcond]
    omega
  · rw [if_neg (by simpa using hA), List.countP_append]
    have hz : table.countP (fun r => r.item_id == iid && r.framework_key == key) = 0 :=
      List.countP_eq_zero.mpr
        (fun r hr => List.any_eq_false.mp (Bool.eq_false_iff.mpr hA) r hr)
    rw [hz]
    by_cases hj : j = iid
    · subst hj
      simp [List.countP_cons]
    · have hne : iid ≠ j := fun h => hj h.symm
      simp [List.countP_cons, hne, hj]

/-- Folding the framework-data upsert over a batch payload keeps at most
one row per `(item, key)` pair, leaves exactly one row for every submitted
item id, and does not touch the rows of item ids absent from the payload. -/
theorem batch_upsert_counts (key : String) (entries : List (Nat × String))
    (table : List ItemFrameworkDataRow)
    (hu : ∀ j, table.countP (fun r => r.item_id == j && r.framework_key == key) ≤ 1) :
    (∀ j, (entries.foldl (fun acc e => upsertIFD acc e.1 key e.2) table).countP
        (fun r => r.item_id == j && r.framework_key == key) ≤ 1) ∧
    (∀ p ∈ entries,
      (entries.foldl (fun acc e => upsertIFD acc e.1 key e.2) table).countP
        (fun r => r.item_id == p.1 && r.framework_key == key) = 1) ∧
    (∀ j, (∀ p ∈ entries, p.1 ≠ j) →
      (entries.foldl (fun acc e => upsertIFD acc e.1 key e.2) table).countP
          (fun r => r.item_id == j && r.framework_key == key) =
        table.countP (fun r => r.item_id == j && r.framework_key == key)) := by
  induction entries generalizing table hu with
  | nil =>
    exact ⟨hu, fun p hp => absurd hp (List.not_mem_nil p), fun j _ => rfl⟩
  | cons e es ih =>
    simp only [List.foldl_cons]
    have hstep : ∀ j, (upsertIFD table e.1 key e.2).countP
        (fun r => r.item_id == j && r.framework_key == key) =
        table.countP (fun r => r.item_id == j && r.framework_key == key) +
          (if j = e.1 ∧ table.countP
              (fun r => r.item_id == e.1 && r.framework_key == key) = 0
            then 1 else 0) := fun j => upsertIFD_countP table e.1 j key e.2
    have hu' : ∀ j, (upsertIFD table e.1 key e.2).countP
        (fun r => r.item_id == j && r.framework_key == key) ≤ 1 := by
      intro j
      rw [hstep j]
      by_cases hj : j = e.1
      · subst hj
        by_cases h0 : table.countP
            (fun r => r.item_id == e.1 && r.framework_key == key) = 0
        · rw [if_pos ⟨rfl, h0⟩]
          omega
        · rw [if_neg (fun hc => h0 hc.2)]
          exact hu e.1
      · rw [if_neg (fun hc => hj hc.1)]
        exact hu j
    have he1 : (upsertIFD table e.1 key e.2).countP
        (fun r => r.item_id == e.1 && r.framework_key == key) = 1 := by
      rw [hstep e.1]
      by_cases h0 : table.countP
          (fun r => r.item_id == e.1 && r.framework_key == key) = 0
      · rw [if_pos ⟨rfl, h0⟩, h0]
      · rw [if_neg (fun hc => h0 hc.2)]
        have := hu e.1
        omega
    obtain ⟨ihu, ihmem, ihold⟩ := ih (upsertIFD table e.1 key e.2) hu'
    refine ⟨ihu, ?_, ?_⟩
    · intro p hp
      rcases List.mem_cons.mp hp with hpe | hpes
      · subst hpe
        by_cases hin : ∃ q ∈ es, q.1 = p.1
        · obtain ⟨q, hq, hq1⟩ := hin
          have hres := ihmem q hq
          rw [hq1] at hres
          exact hres
        · have hne : ∀ q ∈ es, q.1 ≠ p.1 := fun q hq h => hin ⟨q, hq, h⟩
          rw [ihold p.1 hne]
          exact he1
      · exact ihmem p hpes
    · intro j hj
      have hje : e.1 ≠ j := hj e (List.mem_cons_self e es)
      have hnes : ∀ p ∈ es, p.1 ≠ j := fun p hp => hj p (List.mem_cons_of_mem e hp)
      rw [ihold j hnes, hstep j, if_neg (fun hc => hje hc.1.symm)]
      omega

/-- C10: the per-item framework-data write succeeds and upserts for an
arbitrary string key with no catalog membership requirement (only item
ownership); the batch write likewise only checks list ownership, succeeds,
and upserts a row per `(item, key)` pair: every submitted item id ends with
exactly one row under the key, and no pair ever holds more than one row;
the catalog check applies to attaching a framework to a list, which rejects
non-catalog keys with 400. -/
theorem C10_framework_data_key_unchecked (db : DB) (u iid lid : Nat) (key dat : String)
    (entries : List (Nat × String))
    (hitem : ownsItem db u iid = true)
    (huniq : count_ifd db iid key ≤ 1) :
    (update_framework_data db u iid key dat).2 = Resp.ok ∧
    count_ifd (update_framework_data db u iid key dat).1 iid key = 1 ∧
    (∀ r ∈ (update_framework_data db u iid key dat).1.item_framework_data,
      r.item_id = iid → r.framework_key = key → r.data_json = dat) ∧
    (key ∉ FRAMEWORKS →
      (add_list_framework db u lid key).2 = Resp.err 400 "Invalid framework") ∧
    (_owns_list db u lid = true →
      (batch_update_framework_data db u lid key entries).2 = Resp.ok) ∧
    (_owns_list db u lid = true → (∀ j, count_ifd db j key ≤ 1) →
      (∀ p ∈ entries,
        count_ifd (batch_update_framework_data db u lid key entries).1 p.1 key = 1) ∧
      (∀ j, count_ifd (batch_update_framework_data db u lid key entries).1 j key ≤ 1)) := by
  have e : update_framework_data db u iid key dat =
      ({ db with item_framework_data := upsertIFD db.item_framework_data iid key dat },
       Resp.ok) := by
    unfold update_framework_data
    rw [hitem]
    rfl
  rw [e]
  dsimp only
  refine ⟨rfl, ?_, ?_, ?_, ?_, ?_⟩
  · unfold count_ifd at huniq ⊢
    dsimp only
    unfold upsertIFD
    by_cases hA : (db.item_framework_data.any
        (fun r => r.item_id == iid && r.framework_key == key)) = true
    · rw [if_pos hA, List.countP_map]
      have hpos : 0 < db.item_framework_data.countP
          (fun r => r.item_id == iid && r.framework_key == key) := by
        obtain ⟨r, hr, hpr⟩ := List.any_eq_true.mp hA
        exact List.countP_pos_iff.mpr ⟨r, hr, hpr⟩
      have hcmp : ((fun (r : ItemFrameworkDataRow) =>
          r.item_id == iid && r.framework_key == key) ∘
          (fun r => if r.item_id == iid && r.framework_key == key then
            { r with data_json := dat } else r)) =
          (fun (r : ItemFrameworkDataRow) => r.item_id == iid && r.framework_key == key) := by
        funext r
        by_cases h : (r.item_id == iid && r.framework_key == key) = true <;>
          simp [Function.comp, h]
      rw [hcmp]
      omega
    · rw [if_neg (by simpa using hA), List.countP_append]
      have hz : db.item_framework_data.countP
          (fun r => r.item_id == iid && r.framework_key == key) = 0 := by
        refine List.countP_eq_zero.mpr (fun r hr => ?_)
        exact List.any_eq_false.mp (Bool.eq_false_iff.mpr hA) r hr
      rw [hz]
      simp
  · intro r hr h1 h2
    unfold upsertIFD at hr
    by_cases hA : (db.item_framework_data.any
        (fun q => q.item_id == iid && q.framework_key == key)) = true
    · rw [if_pos hA] at hr
      obtain ⟨r0, hr0, rfl⟩ := List.mem_map.mp hr
      by_cases hm0 : (r0.item_id == iid && r0.framework_key == key) = true
      · simp [hm0]
      · simp only [hm0] at h1 h2
        simp only [Bool.false_eq_true, if_false] at h1 h2 ⊢
        exact absurd (by simp [h1, h2]) hm0
    · rw [if_neg (by simpa using hA)] at hr
      rcases List.mem_append.mp hr with hin | hin
      · exact absurd (by simp [h1, h2])
          (List.any_eq_false.mp (Bool.eq_false_iff.mpr hA) r hin)
      · simp only [List.mem_singleton] at hin
        rw [hin]
  · intro hk
    unfold add_list_framework
    rw [if_pos hk]
  · intro hl
    unfold batch_update_framework_data
    rw [hl]
    rfl
  · intro hl hall
    have e2 : batch_update_framework_data db u lid key entries =
        ({ db with
            item_framework_data := entries.foldl
              (fun acc q => upsertIFD acc q.1 key q.2) db.item_framework_data },
         Resp.ok) := by
      unfold batch_update_framework_data
      rw [hl]
      rfl
    have hall' : ∀ j, db.item_framework_data.countP
        (fun r => r.item_id == j && r.framework_key == key) ≤ 1 := fun j => hall j
    obtain ⟨hinv, hmem, _⟩ := batch_upsert_counts key entries db.item_framework_data hall'
    rw [e2]
    exact ⟨fun p hp => hmem p hp, fun j => hinv j⟩

/-- C10 witness: user 1 writes framework data under the non-catalog key
"nonsense" on item 1; the write succeeds and one row exists, while
attaching "nonsense" to list 1 is rejected with 400 and a batch write under
the same key succeeds. -/
theorem C10_framework_data_witness :
    (ownsItem dbA 1 1 = true ∧ count_ifd dbA 1 "nonsense" ≤ 1) ∧
    ((update_framework_data dbA 1 1 "nonsense" "d").2 = Resp.ok ∧
      count_ifd (update_framework_data dbA 1 1 "nonsense" "d").1 1 "nonsense" = 1 ∧
      (add_list_framework dbA 1 1 "nonsense").2 = Resp.err 400 "Invalid framework" ∧
      (batch_update_framework_data dbA 1 1 "nonsense" [(1, "d2")]).2 = Resp.ok ∧
      count_ifd (batch_update_framework_data dbA 1 1 "nonsense" [(1, "d2")]).1
        1 "nonsense" = 1 ∧
      count_ifd (batch_update_framework_data dbA 1 1 "nonsense" [(1, "d2")]).1
        2 "nonsense" ≤ 1) :=
  ⟨⟨by decide, by decide⟩,
    (C10_framework_data_key_unchecked dbA 1 1 1 "nonsense" "d" [(1, "d2")]
      (by decide) (by decide)).1,
    (C10_framework_data_key_unchecked dbA 1 1 1 "nonsense" "d" [(1, "d2")]
      (by decide) (by decide)).2.1,
    (C10_framework_data_key_unchecked dbA 1 1 1 "nonsense" "d" [(1, "d2")]
      (by decide) (by decide)).2.2.2.1 (by decide),
    (C10_framework_data_key_unchecked dbA 1 1 1 "nonsense" "d" [(1, "d2")]
      (by decide) (by decide)).2.2.2.2.1 (by decide),
    ((C10_framework_data_key_unchecked dbA 1 1 1 "nonsense" "d" [(1, "d2")]
      (by decide) (by decide)).2.2.2.2.2 (by decide) (fun j => Nat.zero_le 1)).1
      (1, "d2") (List.mem_singleton.mpr rfl),
    ((C10_framework_data_key_unchecked dbA 1 1 1 "nonsense" "d" [(1, "d2")]
      (by decide) (by decide)).2.2.2.2.2 (by decide) (fun j => Nat.zero_le 1)).2 2⟩

/-- C9 witness: a caller with no items has completion rate 0. -/
theorem C9_completion_rate_witness : completion_rate 0 5 = 0 :=
  (C9_completion_rate_matches_spec 0 5).2 rfl

/-- Membership in a list of ids determines the index: `idxIn` is injective
on members. -/
theorem idxIn_inj (P : List Nat) :
    ∀ x y, x ∈ P → y ∈ P → idxIn x P = idxIn y P → x = y := by
  induction P with
  | nil => intro x y hx _ _; simp at hx
  | cons p rest ih =>
    intro x y hx hy h
    by_cases hpx : (p == x) = true
    · by_cases hpy : (p == y) = true
      · rw [beq_iff_eq] at hpx hpy
        rw [← hpx, ← hpy]
      · simp only [idxIn, hpx, hpy] at h
        simp at h
    · by_cases hpy : (p == y) = true
      · simp only [idxIn, hpx, hpy] at h
        simp at h
      · simp only [idxIn, hpx, hpy, Bool.false_eq_true, if_false, if_true] at h
        have hx' : x ∈ rest := by
          rcases List.mem_cons.mp hx with hxe | hxr
          · exact absurd (beq_iff_eq.mpr hxe.symm) (by simpa using hpx)
          · exact hxr
        have hy' : y ∈ rest := by
          rcases List.mem_cons.mp hy with hye | hyr
          · exact absurd (beq_iff_eq.mpr hye.symm) (by simpa using hpy)
          · exact hyr
        exact ih x y hx' hy' (by omega)

/-- On a duplicate-free list the indices are strictly increasing along the
list. -/
theorem idxIn_pairwise (P : List Nat) (h : P.Nodup) :
    P.Pairwise (fun a b => idxIn a P < idxIn b P) := by
  induction P with
  | nil => exact List.Pairwise.nil
  | cons p rest ih =>
    have hp : p ∉ rest := (List.nodup_cons.mp h).1
    have hrest : rest.Nodup := (List.nodup_cons.mp h).2
    refine List.Pairwise.cons ?_ ?_
    · intro b hb
      have hne : (p == b) = false :=
        beq_eq_false_iff_ne.mpr (fun he => hp (he ▸ hb))
      simp [idxIn, hne]
    · refine (ih hrest).imp_of_mem ?_
      intro a b ha hb hlt
      have hna : (p == a) = false :=
        beq_eq_false_iff_ne.mpr (fun he => hp (he ▸ ha))
      have hnb : (p == b) = false :=
        beq_eq_false_iff_ne.mpr (fun he => hp (he ▸ hb))
      simp [idxIn, hna, hnb]
      omega

/-- Closed form of the reorder UPDATE loop when the submitted ids are
duplicate-free: each row of the target list whose id occurs in the order
receives the sort position `k + (index of its id)`, everything else is
untouched. -/
theorem applyOrder_eq (lid : Nat) (P : List Nat) :
    ∀ (k : Nat) (items : List ItemRow), P.Nodup →
    applyOrder lid items k P = items.map (fun i =>
      if i.list_id = lid ∧ i.id ∈ P then
        { i with sort_order := ((k + idxIn i.id P : Nat) : Int) }
      else i) := by
  induction P with
  | nil =>
    intro k items _
    simp [applyOrder]
  | cons p rest ih =>
    intro k items hnd
    have hp : p ∉ rest := (List.nodup_cons.mp hnd).1
    have hrest : rest.Nodup := (List.nodup_cons.mp hnd).2
    show applyOrder lid
        (items.map (fun i =>
          if i.id == p && i.list_id == lid then { i with sort_order := (k : Int) } else i))
        (k + 1) rest = _
    rw [ih (k + 1) _ hrest, List.map_map]
    refine List.map_congr_left (fun i _ => ?_)
    by_cases h1 : i.list_id = lid
    · by_cases h2 : i.id = p
      · have hb : (i.id == p && i.list_id == lid) = true := by simp [h1, h2]
        have hnotin : i.id ∉ rest := by rw [h2]; exact hp
        have hpx : (p == i.id) = true := beq_iff_eq.mpr h2.symm
        simp [Function.comp, hb, h1, h2, hnotin, idxIn, hpx, hp]
      · have hb : (i.id == p && i.list_id == lid) = false := by simp [h2]
        have hpx : (p == i.id) = false := beq_eq_false_iff_ne.mpr (fun he => h2 he.symm)
        by_cases h3 : i.id ∈ rest
        · have hcons : i.id ∈ p :: rest := List.mem_cons_of_mem p h3
          simp only [Function.comp, hb, Bool.false_eq_true, if_false]
          rw [if_pos ⟨h1, h3⟩, if_pos ⟨h1, hcons⟩]
          simp only [idxIn, hpx, Bool.false_eq_true, if_false]
          congr 1
          omega
        · have hcons : i.id ∉ p :: rest := by
            intro hin
            rcases List.mem_cons.mp hin with he | hr
            · exact h2 he
            · exact h3 hr
          simp only [Function.comp, hb, Bool.false_eq_true, if_false]
          rw [if_neg (fun hc => h3 hc.2), if_neg (fun hc => hcons hc.2)]
    · have hb : (i.id == p && i.list_id == lid) = false := by simp [h1]
      simp only [Function.comp, hb, Bool.false_eq_true, if_false]
      rw [if_neg (fun hc => h1 hc.1), if_neg (fun hc => h1 hc.1)]

/-- C4: reordering an owned list with a duplicate-free permutation of its
item ids (at most 500 of them) succeeds, and reading the items back returns
them exactly in the submitted order. -/
theorem C4_reorder_then_read_back (db : DB) (u lid : Nat) (P : List Nat)
    (howns : _owns_list db u lid = true)
    (hnodup : ((db.items.filter (fun i => i.list_id == lid)).map (fun i => i.id)).Nodup)
    (hperm : P.Perm ((db.items.filter (fun i => i.list_id == lid)).map (fun i => i.id)))
    (hlen : P.length ≤ 500) :
    (reorder_items db u lid P).2 = Resp.ok ∧
    ∃ res : List ItemRow,
      get_items (reorder_items db u lid P).1 u lid = some res ∧
      res.map (fun i => i.id) = P := by
  have hPnodup : P.Nodup := hperm.nodup_iff.mpr hnodup
  have e1 : reorder_items db u lid P =
      ({ db with items := applyOrder lid db.items 0 P }, Resp.ok) := by
    unfold reorder_items
    rw [howns, if_neg (show ¬P.length > 500 by omega)]
    rfl
  have happly := applyOrder_eq lid P 0 db.items hPnodup
  rw [e1]
  dsimp only
  refine ⟨rfl, ?_⟩
  have howns2 : _owns_list ({ db with items := applyOrder lid db.items 0 P }) u lid
      = true := howns
  have e2 : get_items ({ db with items := applyOrder lid db.items 0 P }) u lid =
      some (List.insertionSort itemLe
        ((applyOrder lid db.items 0 P).filter (fun i => i.list_id == lid))) := by
    unfold get_items
    rw [howns2]
    rfl
  rw [e2]
  rw [happly]
  have hfun : ((fun (i : ItemRow) => i.list_id == lid) ∘ (fun i =>
      if i.list_id = lid ∧ i.id ∈ P then
        { i with sort_order := ((0 + idxIn i.id P : Nat) : Int) }
      else i)) = (fun (i : ItemRow) => i.list_id == lid) := by
    funext i
    by_cases hc : i.list_id = lid ∧ i.id ∈ P <;> simp [Function.comp, hc]
  rw [List.filter_map, hfun]
  refine ⟨_, rfl, ?_⟩
  have hids : ((db.items.filter (fun i => i.list_id == lid)).map (fun i =>
      if i.list_id = lid ∧ i.id ∈ P then
        { i with sort_order := ((0 + idxIn i.id P : Nat) : Int) }
      else i)).map (fun i => i.id)
      = (db.items.filter (fun i => i.list_id == lid)).map (fun i => i.id) := by
    rw [List.map_map]
    refine List.map_congr_left (fun i _ => ?_)
    by_cases hc : i.list_id = lid ∧ i.id ∈ P <;> simp [Function.comp, hc]
  have hmem_ls : ∀ i ∈ db.items.filter (fun i => i.list_id == lid),
      i.list_id = lid ∧ i.id ∈ P := by
    intro i hi
    refine ⟨by simpa using (List.mem_filter.mp hi).2, ?_⟩
    exact hperm.mem_iff.mpr (List.mem_map_of_mem (fun i => i.id) hi)
  have hsort : ∀ j ∈ (db.items.filter (fun i => i.list_id == lid)).map (fun i =>
      if i.list_id = lid ∧ i.id ∈ P then
        { i with sort_order := ((0 + idxIn i.id P : Nat) : Int) }
      else i),
      j.sort_order = (idxIn j.id P : Int) ∧ j.id ∈ P := by
    intro j hj
    obtain ⟨i, hi, rfl⟩ := List.mem_map.mp hj
    rw [if_pos (hmem_ls i hi)]
    refine ⟨by simp, (hmem_ls i hi).2⟩
  have hQperm := List.perm_insertionSort itemLe
    ((db.items.filter (fun i => i.list_id == lid)).map (fun i =>
      if i.list_id = lid ∧ i.id ∈ P then
        { i with sort_order := ((0 + idxIn i.id P : Nat) : Int) }
      else i))
  have hQsorted := List.sorted_insertionSort itemLe
    ((db.items.filter (fun i => i.list_id == lid)).map (fun i =>
      if i.list_id = lid ∧ i.id ∈ P then
        { i with sort_order := ((0 + idxIn i.id P : Nat) : Int) }
      else i))
  have hQmem : ∀ j ∈ List.insertionSort itemLe
      ((db.items.filter (fun i => i.list_id == lid)).map (fun i =>
        if i.list_id = lid ∧ i.id ∈ P then
          { i with sort_order := ((0 + idxIn i.id P : Nat) : Int) }
        else i)),
      j.sort_order = (idxIn j.id P : Int) ∧ j.id ∈ P :=
    fun j hj => hsort j (hQperm.mem_iff.mp hj)
  have hQids : (List.insertionSort itemLe
      ((db.items.filter (fun i => i.list_id == lid)).map (fun i =>
        if i.list_id = lid ∧ i.id ∈ P then
          { i with sort_order := ((0 + idxIn i.id P : Nat) : Int) }
        else i))).map (fun i => i.id) |>.Perm P := by
    refine ((hQperm.map (fun i => i.id)).trans ?_)
    rw [hids]
    exact hperm.symm
  have hQnodup : ((List.insertionSort itemLe
      ((db.items.filter (fun i => i.list_id == lid)).map (fun i =>
        if i.list_id = lid ∧ i.id ∈ P then
          { i with sort_order := ((0 + idxIn i.id P : Nat) : Int) }
        else i))).map (fun i => i.id)).Nodup :=
    hQids.nodup_iff.mpr hPnodup
  have hQpair_ne : (List.insertionSort itemLe
      ((db.items.filter (fun i => i.list_id == lid)).map (fun i =>
        if i.list_id = lid ∧ i.id ∈ P then
          { i with sort_order := ((0 + idxIn i.id P : Nat) : Int) }
        else i))).Pairwise (fun a b => a.id ≠ b.id) :=
    List.pairwise_map.mp hQnodup
  have hQstrict : (List.insertionSort itemLe
      ((db.items.filter (fun i => i.list_id == lid)).map (fun i =>
        if i.list_id = lid ∧ i.id ∈ P then
          { i with sort_order := ((0 + idxIn i.id P : Nat) : Int) }
        else i))).Pairwise (fun a b => idxIn a.id P < idxIn b.id P) := by
    refine (hQsorted.and hQpair_ne).imp_of_mem ?_
    intro a b ha hb hab
    obtain ⟨hle, hne⟩ := hab
    obtain ⟨hsa, hpa⟩ := hQmem a ha
    obtain ⟨hsb, hpb⟩ := hQmem b hb
    rcases hle with hlt | ⟨heq, _⟩
    · rw [hsa, hsb] at hlt
      exact_mod_cast hlt
    · rw [hsa, hsb] at heq
      have : idxIn a.id P = idxIn b.id P := by exact_mod_cast heq
      exact absurd (idxIn_inj P a.id b.id hpa hpb this) hne
  have hkey2 : List.Pairwise (fun m n => idxIn m P < idxIn n P)
      ((List.insertionSort itemLe
        ((db.items.filter (fun i => i.list_id == lid)).map (fun i =>
          if i.list_id = lid ∧ i.id ∈ P then
            { i with sort_order := ((0 + idxIn i.id P : Nat) : Int) }
          else i))).map (fun i => i.id)) :=
    List.pairwise_map.mpr hQstrict
  exact @List.eq_of_perm_of_sorted Nat (fun m n => idxIn m P < idxIn n P)
    ⟨fun a b h1 h2 => absurd (Nat.lt_trans h1 h2) (Nat.lt_irrefl _)⟩ _ _
    hQids hkey2 (idxIn_pairwise P hPnodup)

/-- C4 witness: submitting the order [Eggs-id, Milk-id] = [2, 1] for list 1
of `dbC4` and reading back returns the items with ids exactly [2, 1]. -/
theorem C4_reorder_witness :
    (_owns_list dbC4 1 1 = true ∧
      ((dbC4.items.filter (fun i => i.list_id == 1)).map (fun i => i.id)).Nodup ∧
      ([2, 1] : List Nat).Perm
        ((dbC4.items.filter (fun i => i.list_id == 1)).map (fun i => i.id)) ∧
      ([2, 1] : List Nat).length ≤ 500) ∧
    ((reorder_items dbC4 1 1 [2, 1]).2 = Resp.ok ∧
      ∃ res : List ItemRow,
        get_items (reorder_items dbC4 1 1 [2, 1]).1 1 1 = some res ∧
        res.map (fun i => i.id) = [2, 1]) :=
  ⟨⟨by decide, by decide, by decide, by decide⟩,
    C4_reorder_then_read_back dbC4 1 1 [2, 1] (by decide) (by decide) (by decide)
      (by decide)⟩

/-- Shape of the rows produced by the import loop when no entry is skipped
(every sanitised title non-empty): their exported projection is the
entrywise-normalised input, they all belong to the new list, their sort
positions start at `idx` and strictly increase. -/
theorem importRows_spec (lid : Nat) :
    ∀ (es : List ExpItem) (nid idx : Nat), (∀ e ∈ es, _san e.title ≠ "") →
    ((importRows lid nid idx es).map projItem =
        es.map (fun e => (⟨_san e.title, _san_text e.description, normPriority e.priority,
          _valid_date e.due_date, if e.completed ≠ 0 then 1 else 0⟩ : ExpItem))) ∧
    (∀ r ∈ importRows lid nid idx es, r.list_id = lid ∧ (idx : Int) ≤ r.sort_order) ∧
    (importRows lid nid idx es).Pairwise (fun a b => a.sort_order < b.sort_order) := by
  intro es
  induction es with
  | nil =>
    intro nid idx _
    refine ⟨rfl, ?_, List.Pairwise.nil⟩
    intro r hr
    simp [importRows] at hr
  | cons e es ih =>
    intro nid idx hne
    have ht : (_san e.title == "") = false :=
      beq_eq_false_iff_ne.mpr (hne e (List.mem_cons_self e es))
    have hrest : ∀ x ∈ es, _san x.title ≠ "" :=
      fun x hx => hne x (List.mem_cons_of_mem e hx)
    obtain ⟨ih1, ih2, ih3⟩ := ih (nid + 1) (idx + 1) hrest
    have hred : importRows lid nid idx (e :: es) =
        { id := nid, list_id := lid, title := _san e.title,
          description := _san_text e.description,
          sort_order := (idx : Int),
          due_date := _valid_date e.due_date,
          priority := normPriority e.priority,
          completed := if e.completed ≠ 0 then 1 else 0 } ::
          importRows lid (nid + 1) (idx + 1) es := by
      simp only [importRows]
      rw [ht]
      rfl
    rw [hred]
    refine ⟨?_, ?_, ?_⟩
    · rw [List.map_cons, ih1]
      rfl
    · intro r hr
      rcases List.mem_cons.mp hr with he | hr'
      · rw [he]
        exact ⟨rfl, le_refl _⟩
      · obtain ⟨ha, hb⟩ := ih2 r hr'
        exact ⟨ha, by omega⟩
    · refine List.Pairwise.cons ?_ ih3
      intro b hb
      have := (ih2 b hb).2
      show (idx : Int) < b.sort_order
      omega

/-- C3 as amended: export then import round-trips the five compared item
fields in order, provided every item of the list is a fixed point of the
import-side sanitisation (`entryFixed`); without that proviso re-importing
HTML-escapes the already-escaped stored text (see the counterexample). -/
theorem C3_amended_export_import_roundtrip (db : DB) (u lid : Nat) (name desc : String)
    (howns : _owns_list db u lid = true)
    (hfix : ∀ i ∈ db.items, i.list_id = lid → entryFixed (projItem i))
    (hlen : (db.items.filter (fun i => i.list_id == lid)).length ≤ 1000)
    (hfresh : ∀ i ∈ db.items, i.list_id ≠ db.next_list_id) :
    ∃ e : List ExpItem,
      export_list db u lid = some e ∧
      (importList db u name desc e []).2 = Resp.okNat db.next_list_id ∧
      export_list (importList db u name desc e []).1 u db.next_list_id = some e := by
  have hexp : export_list db u lid =
      some ((List.insertionSort expLe
        (db.items.filter (fun i => i.list_id == lid))).map projItem) := by
    unfold export_list
    rw [howns]
    rfl
  refine ⟨_, hexp, ?_, ?_⟩
  all_goals
    have hElen : ((List.insertionSort expLe
        (db.items.filter (fun i => i.list_id == lid))).map projItem).length ≤ 1000 := by
      rw [List.length_map,
        (List.perm_insertionSort expLe (db.items.filter (fun i => i.list_id == lid))).length_eq]
      exact hlen
  · unfold importList
    rw [if_neg (show ¬((List.insertionSort expLe
        (db.items.filter (fun i => i.list_id == lid))).map projItem).length > 1000
      by omega)]
  · have hEfix : ∀ x ∈ (List.insertionSort expLe
        (db.items.filter (fun i => i.list_id == lid))).map projItem, entryFixed x := by
      intro x hx
      obtain ⟨i, hi, rfl⟩ := List.mem_map.mp hx
      have hi' := (List.perm_insertionSort expLe
        (db.items.filter (fun i => i.list_id == lid))).mem_iff.mp hi
      obtain ⟨him, hil⟩ := List.mem_filter.mp hi'
      exact hfix i him (by simpa using hil)
    have hEtitles : ∀ x ∈ (List.insertionSort expLe
        (db.items.filter (fun i => i.list_id == lid))).map projItem, _san x.title ≠ "" := by
      intro x hx
      obtain ⟨h1, h2, _⟩ := hEfix x hx
      rw [h1]
      exact h2
    obtain ⟨hs1, hs2, hs3⟩ := importRows_spec db.next_list_id
      ((List.insertionSort expLe
        (db.items.filter (fun i => i.list_id == lid))).map projItem)
      db.next_item_id 0 hEtitles
    have himp : importList db u name desc
        ((List.insertionSort expLe
          (db.items.filter (fun i => i.list_id == lid))).map projItem) [] =
        ({ db with
            lists := db.lists ++ [⟨db.next_list_id, u,
              _san (if name == "" then "Imported List" else name), _san_text desc⟩],
            items := db.items ++ importRows db.next_list_id db.next_item_id 0
              ((List.insertionSort expLe
                (db.items.filter (fun i => i.list_id == lid))).map projItem),
            list_frameworks := db.list_frameworks ++ [],
            next_list_id := db.next_list_id + 1,
            next_item_id := db.next_item_id + (importRows db.next_list_id db.next_item_id 0
              ((List.insertionSort expLe
                (db.items.filter (fun i => i.list_id == lid))).map projItem)).length },
         Resp.okNat db.next_list_id) := by
      unfold importList
      rw [if_neg (show ¬((List.insertionSort expLe
          (db.items.filter (fun i => i.list_id == lid))).map projItem).length > 1000
        by omega)]
      rfl
    rw [himp]
    dsimp only
    unfold export_list
    rw [show _owns_list ({ db with
        lists := db.lists ++ [⟨db.next_list_id, u,
          _san (if name == "" then "Imported List" else name), _san_text desc⟩],
        items := db.items ++ importRows db.next_list_id db.next_item_id 0
          ((List.insertionSort expLe
            (db.items.filter (fun i => i.list_id == lid))).map projItem),
        list_frameworks := db.list_frameworks ++ [],
        next_list_id := db.next_list_id + 1,
        next_item_id := db.next_item_id + (importRows db.next_list_id db.next_item_id 0
          ((List.insertionSort expLe
            (db.items.filter (fun i => i.list_id == lid))).map projItem)).length })
        u db.next_list_id = true by
      unfold _owns_list
      dsimp only
      rw [List.any_append]
      simp]
    dsimp only
    rw [List.filter_append]
    rw [List.filter_eq_nil_iff.mpr (fun i hi => by
      simp only [beq_iff_eq]
      simpa using hfresh i hi)]
    rw [List.filter_eq_self.mpr (fun r hr => by
      simp only [beq_iff_eq]
      exact (hs2 r hr).1)]
    rw [List.nil_append]
    have hsorted : List.Sorted expLe (importRows db.next_list_id db.next_item_id 0
        ((List.insertionSort expLe
          (db.items.filter (fun i => i.list_id == lid))).map projItem)) :=
      List.Pairwise.imp (fun hab => le_of_lt hab) hs3
    rw [List.Sorted.insertionSort_eq hsorted, hs1]
    have hmapid : (((List.insertionSort expLe
        (db.items.filter (fun i => i.list_id == lid))).map projItem).map
        (fun e => (⟨_san e.title, _san_text e.description, normPriority e.priority,
          _valid_date e.due_date, if e.completed ≠ 0 then 1 else 0⟩ : ExpItem)))
        = (List.insertionSort expLe
          (db.items.filter (fun i => i.list_id == lid))).map projItem := by
      conv_rhs => rw [← List.map_id ((List.insertionSort expLe
        (db.items.filter (fun i => i.list_id == lid))).map projItem)]
      refine List.map_congr_left (fun x hx => ?_)
      obtain ⟨h1, h2, h3, h4, h5, h6⟩ := hEfix x hx
      cases x with
      | mk t d p dd c =>
        simp only [id]
        rcases h6 with hc | hc <;> simp_all
    rw [hmapid]
    rfl

/-- C3 counterexample: in `dbAmp` the stored title of item 1 is `a&amp;b`
(exactly what creating an item titled `a&b` stores, because `_san` escapes
on input).  Exporting list 1, importing the export under a new name, and
exporting the new list yields the title `a&amp;amp;b`: the import re-escapes
the already-escaped text, so the round-tripped items do not match the
originals in title. -/
theorem C3_roundtrip_double_escapes_counterexample :
    ((export_list dbAmp 1 1).getD []).map (fun e => e.title) = ["a&amp;b"] ∧
    ((export_list
        (importList dbAmp 1 "copy" "" ((export_list dbAmp 1 1).getD []) []).1
        1 2).getD []).map (fun e => e.title) = ["a&amp;amp;b"] ∧
    (["a&amp;amp;b"] : List String) ≠ ["a&amp;b"] := by
  decide

/-- C3 amended witness: `dbA`'s list 1 (item "Milk", no escapable
characters) round-trips exactly. -/
theorem C3_roundtrip_witness :
    (_owns_list dbA 1 1 = true ∧ entryFixed (projItem itMilk)) ∧
    ∃ e : List ExpItem,
      export_list dbA 1 1 = some e ∧
      (importList dbA 1 "copy" "" e []).2 = Resp.okNat dbA.next_list_id ∧
      export_list (importList dbA 1 "copy" "" e []).1 1 dbA.next_list_id = some e :=
  ⟨⟨by decide, by decide⟩,
    C3_amended_export_import_roundtrip dbA 1 1 "copy" "" (by decide) (by decide)
      (by decide) (by decide)⟩

end Tracker
